import Mathlib

set_option maxHeartbeats 1000000

/-! Shallow embedding of the pygc repository (src/pygc/util.py and
src/pygc/threshold.py).

Machine floats are modelled as exact rationals inside an IEEE-style value
type `RVal` (finite / +inf / -inf / NaN); rounding is not modelled.
External collaborators of the repository (the numpy square-root kernel, the
pyathena cooling table `coolftn`, `pygc.pot.gz_ext`, the pyathena unit
constants `u.pok` and `u.muH`) enter through an explicit context `Ctx`.
A Python runtime error (AttributeError on a missing field, IndexError on a
too-short axis, pandas KeyError) is modelled by returning `none`. -/

/-- IEEE-style scalar: a finite rational, one of the two infinities, or NaN. -/
inductive RVal where
  | fin (x : ℚ)
  | pinf
  | ninf
  | nan
deriving DecidableEq, Repr

/-- `numpy.isnan` on one cell. -/
def RVal.isNan : RVal → Bool
  | .nan => true
  | _ => false

/-- IEEE addition on the value model. -/
def RVal.add : RVal → RVal → RVal
  | .nan, _ => .nan
  | _, .nan => .nan
  | .fin a, .fin b => .fin (a + b)
  | .fin _, .pinf => .pinf
  | .pinf, .fin _ => .pinf
  | .fin _, .ninf => .ninf
  | .ninf, .fin _ => .ninf
  | .pinf, .pinf => .pinf
  | .ninf, .ninf => .ninf
  | .pinf, .ninf => .nan
  | .ninf, .pinf => .nan

/-- IEEE negation on the value model. -/
def RVal.neg : RVal → RVal
  | .fin a => .fin (-a)
  | .pinf => .ninf
  | .ninf => .pinf
  | .nan => .nan

/-- IEEE subtraction on the value model. -/
def RVal.sub (a b : RVal) : RVal := a.add b.neg

/-- IEEE multiplication on the value model (0 * inf = NaN). -/
def RVal.mul : RVal → RVal → RVal
  | .nan, _ => .nan
  | _, .nan => .nan
  | .fin a, .fin b => .fin (a * b)
  | .fin a, .pinf => if 0 < a then .pinf else if a < 0 then .ninf else .nan
  | .pinf, .fin a => if 0 < a then .pinf else if a < 0 then .ninf else .nan
  | .fin a, .ninf => if 0 < a then .ninf else if a < 0 then .pinf else .nan
  | .ninf, .fin a => if 0 < a then .ninf else if a < 0 then .pinf else .nan
  | .pinf, .pinf => .pinf
  | .ninf, .ninf => .pinf
  | .pinf, .ninf => .ninf
  | .ninf, .pinf => .ninf

/-- IEEE division on the value model (0/0 = NaN, x/0 = ±inf, x/±inf = 0). -/
def RVal.div : RVal → RVal → RVal
  | .nan, _ => .nan
  | _, .nan => .nan
  | .fin a, .fin b =>
      if b = 0 then (if a = 0 then .nan else if 0 < a then .pinf else .ninf)
      else .fin (a / b)
  | .fin _, .pinf => .fin 0
  | .fin _, .ninf => .fin 0
  | .pinf, .fin b => if 0 ≤ b then .pinf else .ninf
  | .ninf, .fin b => if 0 ≤ b then .ninf else .pinf
  | .pinf, .pinf => .nan
  | .pinf, .ninf => .nan
  | .ninf, .pinf => .nan
  | .ninf, .ninf => .nan

/-- IEEE strict less-than (NaN compares false to everything). -/
def RVal.lt : RVal → RVal → Bool
  | .nan, _ => false
  | _, .nan => false
  | .fin a, .fin b => decide (a < b)
  | .fin _, .pinf => true
  | .pinf, .fin _ => false
  | .ninf, .fin _ => true
  | .fin _, .ninf => false
  | .ninf, .pinf => true
  | .pinf, .ninf => false
  | .pinf, .pinf => false
  | .ninf, .ninf => false

/-- `numpy.sqrt` on the value model; `s` is the external square-root kernel
(modelled abstractly because the square root of a rational is irrational),
negative arguments give NaN exactly as in numpy. -/
def RVal.sqrtv (s : ℚ → ℚ) : RVal → RVal
  | .fin x => if x < 0 then .nan else .fin (s x)
  | .pinf => .pinf
  | .ninf => .nan
  | .nan => .nan

/-- `xarray .sum(dim=...)` over a list of cells with the default
`skipna=True` used for float data: NaN cells are dropped and an all-NaN
(or empty) slice sums to 0. -/
def nansumList (l : List RVal) : RVal :=
  (l.filter (fun v => !v.isNan)).foldl RVal.add (RVal.fin 0)

/-- A 3-d data variable over grid indices (i, j, k) = (x, y, z).  Arrays are
total functions; only indices below the recorded axis sizes are meaningful. -/
abbrev Arr3 := ℕ → ℕ → ℕ → RVal

/-- A 2-d data variable over grid indices (i, j) = (x, y). -/
abbrev Arr2 := ℕ → ℕ → RVal

/-- Embedding of `pygc.util.wmean(arr, weights, dim)` for `dim='z'` (the only
dimension the repository reduces over): mask = `arr` is not NaN; result =
sum(arr*weights, z) / sum(weights restricted to mask, z).  `nz` is the length
of the z axis carried by the xarray objects.  The dynamic type check (raise
unless the argument is a DataArray) is outside the embedded value model. -/
def wmean (arr weights : Arr3) (nz : ℕ) : Arr2 := fun i j =>
  (nansumList ((List.range nz).map (fun k => (arr i j k).mul (weights i j k)))).div
    (nansumList ((List.range nz).map (fun k =>
      if (arr i j k).isNan then RVal.nan else weights i j k)))

/-- The arithmetic mean along z: plain sum of the cells divided by the cell
count (the specification-side comparison point for `wmean`). -/
def amean (arr : Arr3) (nz : ℕ) : Arr2 := fun i j =>
  (((List.range nz).map (fun k => arr i j k)).foldl RVal.add (RVal.fin 0)).div
    (RVal.fin nz)

/-- `DataArray.interp(z=0)` along an ascending z axis: linear interpolation
between the two bracketing cells, NaN when 0 lies outside the coordinate
range (xarray default `bounds_error=False`). -/
def interpZ (nz : ℕ) (z : ℕ → ℚ) (v : ℕ → RVal) : RVal :=
  match ((List.range nz).filter (fun k => decide (z k ≤ 0))).getLast? with
  | none => RVal.nan
  | some j =>
      if j = nz - 1 then (if z j = 0 then v j else RVal.nan)
      else (v j).add (((v (j+1)).sub (v j)).mul (RVal.fin ((0 - z j) / (z (j+1) - z j))))

/-- An xarray Dataset: axis sizes, coordinate arrays, the 3-d and 2-d data
variables as an insertion-ordered association list (one shared name space,
mirroring the `data_vars` dict), and the optional `R` coordinate that
`add_derived_fields` attaches via `dat.coords['R']`. -/
structure Dataset where
  nx : ℕ
  ny : ℕ
  nz : ℕ
  x : ℕ → ℚ
  y : ℕ → ℚ
  z : ℕ → ℚ
  vars3 : List (String × Arr3)
  vars2 : List (String × Arr2)
  coordR : Option (ℕ → ℕ → ℚ)

/-- Update-or-append on an association list: a dict assignment keeps the
position of an existing key and appends a new one. -/
def setA (l : List (String × α)) (k : String) (v : α) : List (String × α) :=
  if (l.map Prod.fst).contains k then
    l.map (fun p => if p.1 == k then (k, v) else p)
  else l ++ [(k, v)]

/-- Remove a key from an association list. -/
def eraseA (l : List (String × α)) (k : String) : List (String × α) :=
  l.filter (fun p => !(p.1 == k))

/-- All data-variable names of a dataset (`dat.data_vars`; the `R`
coordinate is deliberately NOT part of this list, exactly as in xarray). -/
def dvNames (d : Dataset) : List String :=
  d.vars3.map Prod.fst ++ d.vars2.map Prod.fst

/-- Membership test `name in dat.data_vars`. -/
def dvMem (d : Dataset) (name : String) : Bool :=
  (dvNames d).contains name

/-- `dat[name] = <3-d array>`: a dict assignment replaces a variable of the
same name whatever its dimensionality. -/
def dvSet3 (d : Dataset) (k : String) (v : Arr3) : Dataset :=
  { d with vars3 := setA d.vars3 k v, vars2 := eraseA d.vars2 k }

/-- `dat[name] = <2-d array>`. -/
def dvSet2 (d : Dataset) (k : String) (v : Arr2) : Dataset :=
  { d with vars2 := setA d.vars2 k v, vars3 := eraseA d.vars3 k }

/-- `dat.drop(name)`. -/
def dvDrop (d : Dataset) (k : String) : Dataset :=
  { d with vars3 := eraseA d.vars3 k, vars2 := eraseA d.vars2 k }

/-- External collaborators of `pygc.util`, used as black boxes by the
repository and therefore abstract parameters of the embedding. -/
structure Ctx where
  /-- numpy square root restricted to nonnegative rationals. -/
  sqrtQ : ℚ → ℚ
  /-- `pyathena.classic.cooling.coolftn().get_temp`, applied cellwise. -/
  getTemp : RVal → RVal
  /-- `pygc.pot.gz_ext(R, z, TIGRESS_unit=True)`, applied cellwise. -/
  gzExt : ℚ → ℚ → ℚ
  /-- `pyathena.util.units.Units().pok`. -/
  pok : ℚ
  /-- `pyathena.util.units.Units().muH`. -/
  muH : ℚ

/-- The `fields` argument of `add_derived_fields`: the documented list form,
or a bare Python string (which the function also receives from its own
recursive calls, e.g. `fields='Pturb'`). -/
inductive FieldsArg where
  | list (fs : List String)
  | str (s : String)
deriving DecidableEq

/-- Contiguous-infix test on character lists (Python substring containment). -/
def infixOf (sub : List Char) : List Char → Bool
  | [] => sub.isEmpty
  | c :: t => sub.isPrefixOf (c :: t) || infixOf sub t

/-- The Python test `name in fields`: list membership for a list argument,
substring containment for a string argument. -/
def fmem (name : String) (fields : FieldsArg) : Bool :=
  match fields with
  | .list fs => fs.contains name
  | .str s => infixOf name.toList s.toList

/-- Write a 3-d field into the in-place target: the caller's dataset when
`in_place`, the working copy `tmp` otherwise.  The state pair is
(dat, tmp). -/
def wr3 (ip : Bool) (st : Dataset × Dataset) (k : String) (v : Arr3) :
    Dataset × Dataset :=
  if ip then (dvSet3 st.1 k v, st.2) else (st.1, dvSet3 st.2 k v)

/-- Write a 2-d field into the in-place target. -/
def wr2 (ip : Bool) (st : Dataset × Dataset) (k : String) (v : Arr2) :
    Dataset × Dataset :=
  if ip then (dvSet2 st.1 k v, st.2) else (st.1, dvSet2 st.2 k v)

/-- `target.coords['R'] = ...`. -/
def wrR (ip : Bool) (st : Dataset × Dataset) (v : ℕ → ℕ → ℚ) :
    Dataset × Dataset :=
  if ip then ({ st.1 with coordR := some v }, st.2)
  else (st.1, { st.2 with coordR := some v })

/-- The `'H'` block of `add_derived_fields`: scale height
sqrt(wmean(z**2 masked by density, density, z)).  Each block function takes
and returns the state pair (dat, tmp) and returns `none` on a Python
exception. -/
def blockH (ctx : Ctx) (fields : FieldsArg) (in_place : Bool)
    (st : Dataset × Dataset) : Option (Dataset × Dataset) :=
  if fmem "H" fields then do
    let dens ← st.1.vars3.lookup "density"
    let zsq : Arr3 := fun i j k =>
      if (dens i j k).isNan then RVal.nan
      else RVal.fin (st.1.z k * st.1.z k)
    pure (wr2 in_place st "H"
      (fun i j => RVal.sqrtv ctx.sqrtQ (wmean zsq dens st.1.nz i j)))
  else pure st

/-- The `'surf'` block: sum(density*dz, z). -/
def blockSurf (fields : FieldsArg) (in_place : Bool) (dz : ℚ)
    (st : Dataset × Dataset) : Option (Dataset × Dataset) :=
  if fmem "surf" fields then do
    let dens ← st.1.vars3.lookup "density"
    pure (wr2 in_place st "surf"
      (fun i j => nansumList ((List.range st.1.nz).map
        (fun k => (dens i j k).mul (RVal.fin dz)))))
  else pure st

/-- The `'sz'` block: dependency step (note: the source checks `'gz_sg'`,
not `'Pturb'`, before computing `Pturb` in place on the ORIGINAL dataset),
then sqrt((Pturb/density).interp(z=0)). -/
def blockSz (ctx : Ctx)
    (callDF : Dataset → FieldsArg → Bool → Option (Dataset × Option Dataset))
    (fields : FieldsArg) (in_place : Bool) (st : Dataset × Dataset) :
    Option (Dataset × Dataset) :=
  if fmem "sz" fields then do
    let stA ←
      if !(dvMem st.1 "gz_sg") then do
        let r ← callDF st.1 (.str "Pturb") true
        pure ((r.1, st.2) : Dataset × Dataset)
      else pure st
    let pt ← stA.1.vars3.lookup "Pturb"
    let dens ← stA.1.vars3.lookup "density"
    pure (wr2 in_place stA "sz" (fun i j =>
      RVal.sqrtv ctx.sqrtQ
        (interpZ stA.1.nz stA.1.z (fun k => (pt i j k).div (dens i j k)))))
  else pure st

/-- The `'R'` block: attach the coordinate sqrt(x**2+y**2). -/
def blockR (ctx : Ctx) (fields : FieldsArg) (in_place : Bool)
    (st : Dataset × Dataset) : Option (Dataset × Dataset) :=
  if fmem "R" fields then
    pure (wrR in_place st
      (fun i j => ctx.sqrtQ (st.1.x i * st.1.x i + st.1.y j * st.1.y j)))
  else pure st

/-- The `'Pturb'` block: density*velocity3**2. -/
def blockPturb (fields : FieldsArg) (in_place : Bool) (st : Dataset × Dataset) :
    Option (Dataset × Dataset) :=
  if fmem "Pturb" fields then do
    let dens ← st.1.vars3.lookup "density"
    let v3 ← st.1.vars3.lookup "velocity3"
    pure (wr3 in_place st "Pturb"
      (fun i j k => (dens i j k).mul ((v3 i j k).mul (v3 i j k))))
  else pure st

/-- The `'Pgrav'` block: in-place dependency computation of `gz_sg` (when
`'gz_sg'` is not a data variable) and of `R` (when `'R'` is not a data
variable — it never is after the engine attaches it as a coordinate), then
minus the z>0 sum of density*(gz_sg + gz_ext(R, z)) times dz. -/
def blockPgrav (ctx : Ctx)
    (callDF : Dataset → FieldsArg → Bool → Option (Dataset × Option Dataset))
    (fields : FieldsArg) (in_place : Bool) (dz : ℚ) (st : Dataset × Dataset) :
    Option (Dataset × Dataset) :=
  if fmem "Pgrav" fields then do
    let stA ←
      if !(dvMem st.1 "gz_sg") then do
        let r ← callDF st.1 (.str "gz_sg") true
        pure ((r.1, st.2) : Dataset × Dataset)
      else pure st
    let stB ←
      if !(dvMem stA.1 "R") then do
        let r ← callDF stA.1 (.str "R") true
        pure ((r.1, stA.2) : Dataset × Dataset)
      else pure stA
    let dens ← stB.1.vars3.lookup "density"
    let gz ← stB.1.vars3.lookup "gz_sg"
    let Rc ← stB.1.coordR
    let Pg : Arr2 := fun i j =>
      (nansumList ((List.range stB.1.nz).map (fun k =>
        if 0 < stB.1.z k then
          (dens i j k).mul ((gz i j k).add
            (RVal.fin (ctx.gzExt (Rc i j) (stB.1.z k))))
        else RVal.nan))).mul (RVal.fin dz)
    pure (wr2 in_place stB "Pgrav" (fun i j => (Pg i j).neg))
  else pure st

/-- The `'T'` block: cooling-table lookup of pressure*pok/density*muH. -/
def blockT (ctx : Ctx) (fields : FieldsArg) (in_place : Bool)
    (st : Dataset × Dataset) : Option (Dataset × Dataset) :=
  if fmem "T" fields then do
    let p ← st.1.vars3.lookup "pressure"
    let dens ← st.1.vars3.lookup "density"
    pure (wr3 in_place st "T" (fun i j k =>
      ctx.getTemp ((((p i j k).mul (RVal.fin ctx.pok)).div
        (dens i j k)).mul (RVal.fin ctx.muH))))
  else pure st

/-- The `'gz_sg'` block: shifted potential differences with the 3,-3,1
one-sided boundary rows, divided by dz (IndexError when the z axis is
shorter than 4). -/
def blockGz (fields : FieldsArg) (in_place : Bool) (dz : ℚ)
    (st : Dataset × Dataset) : Option (Dataset × Dataset) :=
  if fmem "gz_sg" fields then do
    let pot ← st.1.vars3.lookup "gravitational_potential"
    if 4 ≤ st.1.nz then
      let n := st.1.nz
      let phir : Arr3 := fun i j k =>
        if k = n - 1 then
          (((RVal.fin 3).mul (pot i j (n-1))).sub
            ((RVal.fin 3).mul (pot i j (n-2)))).add (pot i j (n-3))
        else pot i j (k+1)
      let phil : Arr3 := fun i j k =>
        if k = 0 then
          (((RVal.fin 3).mul (pot i j 0)).sub
            ((RVal.fin 3).mul (pot i j 1))).add (pot i j 2)
        else pot i j (k-1)
      pure (wr3 in_place st "gz_sg"
        (fun i j k => ((phil i j k).sub (phir i j k)).div (RVal.fin dz)))
    else none
  else pure st

/-- Body of `pygc.util.add_derived_fields(dat, fields, in_place)`, the
sequential composition of the eight `if 'X' in fields:` blocks above;
`callDF` stands for the recursive dependency calls (tied in `addDFgo`).
The result is `some (dat', ret)` where `dat'` is the state of the caller's
`dat` object after the call (the function mutates it through its recursive
`in_place=True` dependency calls even when `in_place=False`) and `ret` is
the Python return value (`tmp` when not in place, `None` otherwise); `none`
models a raised exception.  One modelling restriction: `dat.R` is read from
the `R` coordinate (the engine always attaches `R` as a coordinate); a
user-supplied `R` *data* variable shadowing it is not modelled. -/
def addDFbody (ctx : Ctx)
    (callDF : Dataset → FieldsArg → Bool → Option (Dataset × Option Dataset))
    (dat0 : Dataset) (fields : FieldsArg) (in_place : Bool) :
    Option (Dataset × Option Dataset) :=
  -- dx = (dat.x[1]-dat.x[0]).values[()] etc.; IndexError when an axis has < 2 points
  if 2 ≤ dat0.nx ∧ 2 ≤ dat0.ny ∧ 2 ≤ dat0.nz then
    let dz : ℚ := dat0.z 1 - dat0.z 0
    -- tmp = dat.copy() when not in_place; the pair is (dat, tmp)
    do
    let st1 ← blockH ctx fields in_place (dat0, dat0)
    let st2 ← blockSurf fields in_place dz st1
    let st3 ← blockSz ctx callDF fields in_place st2
    let st4 ← blockR ctx fields in_place st3
    let st5 ← blockPturb fields in_place st4
    let st6 ← blockPgrav ctx callDF fields in_place dz st5
    let st7 ← blockT ctx fields in_place st6
    let st8 ← blockGz fields in_place dz st7
    if in_place then pure (st8.1, none) else pure (st8.1, some st8.2)
  else none

/-- Fuelled recursion for `add_derived_fields`: tie `addDFbody`'s dependency
call sites back to the function itself.  The call sites only ever pass the
strings `'Pturb'`, `'gz_sg'` and `'R'`, none of which contains `'sz'` or
`'Pgrav'` as a substring, so the recursion depth is at most 2 and fuel 2
makes the embedding exact; fuel 0 is unreachable from the public entry. -/
def addDFgo (ctx : Ctx) : ℕ → Dataset → FieldsArg → Bool →
    Option (Dataset × Option Dataset)
  | 0, _, _, _ => none
  | fuel + 1, dat, fields, in_place => addDFbody ctx (addDFgo ctx fuel) dat fields in_place

/-- Public entry point, fuel 2 (exact: the recursion depth is at most 2 for
every input, see `addDFgo`). -/
def add_derived_fields (ctx : Ctx) (dat : Dataset) (fields : FieldsArg)
    (in_place : Bool) : Option (Dataset × Option Dataset) :=
  addDFgo ctx 2 dat fields in_place

/-! ### count_SNe (src/pygc/util.py) -/

/-- The grid-domain descriptor that `count_SNe` reads from `s.domain`:
lower-left edge, upper-right edge, spacing and cell count of the two
horizontal axes. -/
structure SNDomain where
  le1 : ℚ
  le2 : ℚ
  re1 : ℚ
  re2 : ℚ
  dx1 : ℚ
  dx2 : ℚ
  Nx1 : ℕ
  Nx2 : ℕ
deriving DecidableEq

/-- One row of the supernova dump returned by `s.read_sn()` (the columns
`count_SNe` selects). -/
structure SNEvent where
  time : ℚ
  x1sn : ℚ
  x2sn : ℚ
  navg : ℚ
deriving DecidableEq

/-- The cell key (j, i) of an event: `floor((position - lower edge)/spacing)`
per axis, j (the x2/y axis) first, matching `groupby(['j','i'])`. -/
def snKey (dom : SNDomain) (e : SNEvent) : ℤ × ℤ :=
  (⌊(e.x2sn - dom.le2) / dom.dx2⌋, ⌊(e.x1sn - dom.le1) / dom.dx1⌋)

/-- `sn.groupby(['j','i']).size()`: each distinct key with its multiplicity. -/
def groupSizes (keys : List (ℤ × ℤ)) : List ((ℤ × ℤ) × ℕ) :=
  keys.dedup.map (fun k => (k, keys.count k))

/-- Embedding of `pygc.util.count_SNe(s, ts, te, ncrit)`.  The event log (the
external `s.read_sn()`) is an explicit argument.  Output: the dense (j, i)
grid of event counts with NaN at cells that received no event; `none` models
the pandas KeyError raised when a surviving event falls outside the grid.
The x/y cell-centre coordinate labels attached to the returned DataArray
carry no information beyond the domain descriptor and are not modelled. -/
def count_SNe (dom : SNDomain) (evs : List SNEvent) (ts te ncrit : ℚ) :
    Option (ℕ → ℕ → RVal) :=
  -- sn = sn[(sn.time > ts)&(sn.time < te)&(sn.navg > ncrit)]
  let sn := evs.filter (fun e =>
    decide (ts < e.time) && decide (e.time < te) && decide (ncrit < e.navg))
  let keyed := sn.map (snKey dom)
  let groups := groupSizes keyed
  if groups.all (fun g =>
      decide (0 ≤ g.1.1 ∧ g.1.1 < (dom.Nx2 : ℤ) ∧ 0 ≤ g.1.2 ∧ g.1.2 < (dom.Nx1 : ℤ))) then
    some (fun j i =>
      match groups.lookup ((j : ℤ), (i : ℤ)) with
      | some c => RVal.fin c
      | none => RVal.nan)
  else none

/-! ### LPthres.get_Teq (src/pygc/threshold.py) -/

/-- Interval-halving loop of the scipy bisection (the value returned on the
success path; its accuracy is irrelevant to the claims settled here). -/
def bisectHalve : ℕ → (ℚ → ℚ) → ℚ → ℚ → ℚ
  | 0, _, a, b => (a + b) / 2
  | n + 1, f, a, b =>
    let m := (a + b) / 2
    if f a * f m ≤ 0 then bisectHalve n f a m else bisectHalve n f m b

/-- Modelled from the spec: `scipy.optimize.bisect` (an external library
function) raises ValueError exactly when f(a) and f(b) do not bracket a sign
change (f(a)·f(b) > 0); otherwise it returns a root approximation. -/
def bisect (f : ℚ → ℚ) (a b : ℚ) : Except Unit ℚ :=
  if 0 < f a * f b then .error () else .ok (bisectHalve 100 f a b)

/-- The interpolated heating/cooling functions an `LPthres` instance builds
from the external cooling table in its constructor. -/
structure LPthres where
  heatft : ℚ → ℚ
  coolft : ℚ → ℚ

/-- Embedding of `LPthres.get_Teq(heat_ratio, nH)`: bisect
`heat_ratio*heat(T)/nH - cool(T)` over [12.95, 1e7]; a ValueError from the
root finder is caught and converted to the NaN sentinel. -/
def LPthres.get_Teq (lp : LPthres) (heat_ratio nH : ℚ) : RVal :=
  match bisect (fun x => heat_ratio * lp.heatft x / nH - lp.coolft x)
      (1295/100) (10000000 : ℚ) with
  | .ok t => .fin t
  | .error _ => .nan

/-! ### sum_dataset (src/pygc/util.py) -/

/-- `Twarm = 2.0e4` from src/pygc/util.py. -/
def Twarm : ℚ := 20000

/-- `dat.where(cond, other=0)` for a dataset whose data variables are all
3-d (the only situation in which the repository calls it): every cell where
the condition fails is replaced by 0; coordinates are untouched. -/
def dsWhere (d : Dataset) (cond : ℕ → ℕ → ℕ → Bool) : Dataset :=
  { d with vars3 := d.vars3.map (fun p =>
      (p.1, fun i j k => if cond i j k then p.2 i j k else RVal.fin 0)) }

/-- `dat += tmp` between datasets with matching variable names (the only
situation produced by `sum_dataset`): cellwise addition variable by
variable; a name missing on the right (never happens here) contributes NaN. -/
def dsAdd (a b : Dataset) : Dataset :=
  { a with
    vars3 := a.vars3.map (fun p =>
      (p.1, fun i j k => (p.2 i j k).add
        (((b.vars3.lookup p.1).getD (fun _ _ _ => RVal.nan)) i j k))),
    vars2 := a.vars2.map (fun p =>
      (p.1, fun i j => (p.2 i j).add
        (((b.vars2.lookup p.1).getD (fun _ _ => RVal.nan)) i j))) }

/-- The per-snapshot body of `sum_dataset`: optional two-phase filtering
(save Φ, add `T` in place, zero cells with T ≥ Twarm, drop `T`, restore Φ)
followed by the in-place computation of `R`, `Pturb`, `Pgrav`. -/
def procSnap (ctx : Ctx) (twophase : Bool) (snap : Dataset) : Option Dataset :=
  if twophase then do
    let Phi ← snap.vars3.lookup "gravitational_potential"
    let r1 ← add_derived_fields ctx snap (.str "T") true
    let d1 := r1.1
    let T ← d1.vars3.lookup "T"
    let d2 := dsWhere d1 (fun i j k => (T i j k).lt (RVal.fin Twarm))
    let d3 := dvDrop d2 "T"
    let d4 := dvSet3 d3 "gravitational_potential" Phi
    let r5 ← add_derived_fields ctx d4 (.list ["R", "Pturb", "Pgrav"]) true
    pure r5.1
  else do
    let r5 ← add_derived_fields ctx snap (.list ["R", "Pturb", "Pgrav"]) true
    pure r5.1

/-- Embedding of `pygc.util.sum_dataset(s, nums, twophase)`.  The snapshot
loader is external, so the already-loaded snapshots stand in for the index
list `nums`; an empty list models the IndexError on `nums[0]`. -/
def sum_dataset (ctx : Ctx) (snaps : List Dataset) (twophase : Bool) :
    Option Dataset :=
  match snaps with
  | [] => none
  | s0 :: rest => do
    let d0 ← procSnap ctx twophase s0
    rest.foldlM (fun acc s => do
      let t ← procSnap ctx twophase s
      pure (dsAdd acc t)) d0

/-! ### Specification-side definitions (used only on the right-hand side of
theorems, written from the spec's words, to be compared with the source
embedding). -/

/-- A data variable of a snapshot, as a total function (NaN off the list). -/
def snapVar (d : Dataset) (n : String) : Arr3 :=
  (d.vars3.lookup n).getD (fun _ _ _ => RVal.nan)

/-- The temperature the engine derives for a snapshot: cooling-table lookup
of `pressure*pok/density*muH`, cell by cell. -/
def snapT (ctx : Ctx) (d : Dataset) : Arr3 := fun i j k =>
  ctx.getTemp ((((snapVar d "pressure" i j k).mul (RVal.fin ctx.pok)).div
    (snapVar d "density" i j k)).mul (RVal.fin ctx.muH))

/-- Spec-side description of one two-phase-filtered cell: the gravitational
potential is carried through unmodified; every other field keeps its value
where T < Twarm and is zeroed elsewhere. -/
def specFilteredCell (ctx : Ctx) (d : Dataset) (f : String) (i j k : ℕ) : RVal :=
  if f = "gravitational_potential" then snapVar d f i j k
  else if (snapT ctx d i j k).lt (RVal.fin Twarm) then snapVar d f i j k
  else RVal.fin 0

/-- Cellwise sum of a value per snapshot over a snapshot sequence, with no
normalisation by the number of snapshots (spec-side). -/
def specSum : List RVal → RVal
  | [] => RVal.fin 0
  | v :: vs => vs.foldl RVal.add v

/-- The base field names a snapshot carries after
`get_field(['density','velocity','pressure','gravitational_potential'])`. -/
def baseNames : List String :=
  ["density", "velocity1", "velocity2", "velocity3", "pressure",
   "gravitational_potential"]

/-- A well-formed freshly loaded snapshot: exactly the base data variables
(in loader order), no 2-d variables, and axes long enough for the engine
(two points in x and y, four in z for the one-sided `gz_sg` stencils). -/
def IsBaseSnap (d : Dataset) : Prop :=
  d.vars3.map Prod.fst = baseNames ∧ d.vars2.length = 0 ∧
    2 ≤ d.nx ∧ 2 ≤ d.ny ∧ 4 ≤ d.nz

/-! ### Concrete sample data for counterexamples and witnesses -/

/-- A concrete external context: identity square root and cooling table,
vanishing external gravity, unit conversion constants 1. -/
def ctx0 : Ctx :=
  { sqrtQ := id, getTemp := id, gzExt := fun _ _ => 0, pok := 1, muH := 1 }

/-- A constant 3-d array. -/
def constA (q : ℚ) : Arr3 := fun _ _ _ => RVal.fin q

/-- A tiny 2×2×4 dataset with the base fields only (density 2,
velocity3 3, pressure 1, potential 0; z = 0,1,2,3). -/
def D1 : Dataset :=
  { nx := 2, ny := 2, nz := 4,
    x := fun i => i, y := fun j => j, z := fun k => k,
    vars3 := [("density", constA 2), ("velocity3", constA 3),
              ("pressure", constA 1), ("gravitational_potential", constA 0)],
    vars2 := [], coordR := none }

/-- `D1` with a user-supplied `Pturb` equal to 7 everywhere (different from
`density*velocity3**2 = 18`) and no `gz_sg`. -/
def D2 : Dataset := dvSet3 D1 "Pturb" (constA 7)

/-- `D1` with `gz_sg` present but `Pturb` absent. -/
def D2b : Dataset := dvSet3 D1 "gz_sg" (constA 0)

/-- `D1` with a user-supplied `R` coordinate equal to 5 everywhere
(different from `sqrt(x**2+y**2)`, which is 0 at the origin cell). -/
def D2c : Dataset := { D1 with coordR := some (fun _ _ => 5) }

/-- A 2×2×4 dataset whose gravitational potential is the linear profile
Φ(z) = 1·z + 0 on the uniform grid z = 0,1,2,3. -/
def D3 : Dataset :=
  { D1 with vars3 := [("density", constA 1),
      ("gravitational_potential", fun _ _ k => RVal.fin (k : ℚ))] }

/-- A concrete heat/cool pair with no crossing: heating 0, cooling 1. -/
def lp0 : LPthres := { heatft := fun _ => 0, coolft := fun _ => 1 }

/-- Spec-side event count for one grid cell (j, i): events strictly inside
the time window, strictly above the density threshold, whose floor cell key
is exactly (j, i). -/
def specSNCount (dom : SNDomain) (evs : List SNEvent) (ts te ncrit : ℚ)
    (j i : ℕ) : ℕ :=
  evs.countP (fun e =>
    decide (ts < e.time) && decide (e.time < te) && decide (ncrit < e.navg) &&
      (snKey dom e == ((j : ℤ), (i : ℤ))))

/-- A concrete 2×2 domain with unit spacing and lower-left corner (0, 0). -/
def dom0 : SNDomain :=
  { le1 := 0, le2 := 0, re1 := 2, re2 := 2, dx1 := 1, dx2 := 1, Nx1 := 2, Nx2 := 2 }

/-- The spec's worked example: two events in cell (0,0) inside the window,
one event outside the time window. -/
def evs0 : List SNEvent :=
  [⟨1, 1/2, 1/2, 10⟩, ⟨3/2, 3/4, 1/4, 10⟩, ⟨5, 1/2, 1/2, 10⟩]

/-- The `R` coordinate array the engine attaches: sqrt(x**2 + y**2). -/
def RlamOf (ctx : Ctx) (d : Dataset) : ℕ → ℕ → ℚ :=
  fun i j => ctx.sqrtQ (d.x i * d.x i + d.y j * d.y j)

/-- The `gz_sg` array the engine computes from a potential array `pot` on a
z-axis of length `nz` with spacing `dz` (shifted centered difference with
3,-3,1 one-sided boundary rows, divided by `dz`). -/
def gzArrOf (nz : ℕ) (dz : ℚ) (pot : Arr3) : Arr3 := fun i j k =>
  ((if k = 0 then
      (((RVal.fin 3).mul (pot i j 0)).sub ((RVal.fin 3).mul (pot i j 1))).add (pot i j 2)
    else pot i j (k - 1)).sub
   (if k = nz - 1 then
      (((RVal.fin 3).mul (pot i j (nz - 1))).sub ((RVal.fin 3).mul (pot i j (nz - 2)))).add
        (pot i j (nz - 3))
    else pot i j (k + 1))).div (RVal.fin dz)

/-- The `Pgrav` array the engine computes: minus the z-sum (over cells with
z > 0) of density*(gz_sg + gz_ext(R, z)), times dz. -/
def pgArrOf (ctx : Ctx) (nz : ℕ) (z : ℕ → ℚ) (dz : ℚ) (dens gz : Arr3)
    (Rc : ℕ → ℕ → ℚ) : Arr2 := fun i j =>
  ((nansumList ((List.range nz).map (fun k =>
      if 0 < z k then
        (dens i j k).mul ((gz i j k).add (RVal.fin (ctx.gzExt (Rc i j) (z k))))
      else RVal.nan))).mul (RVal.fin dz)).neg

/-- The `Pturb` array the engine computes: density*velocity3**2. -/
def ptArrOf (dens v3 : Arr3) : Arr3 :=
  fun i j k => (dens i j k).mul ((v3 i j k).mul (v3 i j k))

/-- The `sz` array the engine computes: sqrt((Pturb/density).interp(z=0)). -/
def szArrOf (ctx : Ctx) (nz : ℕ) (z : ℕ → ℚ) (pt dens : Arr3) : Arr2 :=
  fun i j => RVal.sqrtv ctx.sqrtQ
    (interpZ nz z (fun k => (pt i j k).div (dens i j k)))

/-- The `T` array the engine computes: cooling-table lookup of
pressure*pok/density*muH. -/
def tArrOf (ctx : Ctx) (p dens : Arr3) : Arr3 :=
  fun i j k => ctx.getTemp ((((p i j k).mul (RVal.fin ctx.pok)).div
    (dens i j k)).mul (RVal.fin ctx.muH))

/-- The two-phase mask of `sum_dataset`: keep a cell where the derived
temperature is below `Twarm`, zero it elsewhere. -/
def maskArr (T a : Arr3) : Arr3 := fun i j k =>
  if (T i j k).lt (RVal.fin Twarm) then a i j k else RVal.fin 0

/-- A freshly loaded snapshot: the six base data variables in loader order,
no 2-d variables, arbitrary pre-existing `R` coordinate. -/
def baseDS (nx ny nz : ℕ) (x y z : ℕ → ℚ) (a1 a2 a3 a4 a5 a6 : Arr3)
    (cR : Option (ℕ → ℕ → ℚ)) : Dataset :=
  { nx := nx, ny := ny, nz := nz, x := x, y := y, z := z,
    vars3 := [("density", a1), ("velocity1", a2), ("velocity2", a3),
              ("velocity3", a4), ("pressure", a5),
              ("gravitational_potential", a6)],
    vars2 := [], coordR := cR }

/-- The dataset produced by the in-place `['R','Pturb','Pgrav']` run on a
snapshot of shape `baseDS`: the six variables untouched, `Pturb` and `gz_sg`
appended, `Pgrav` as the only 2-d variable, and the `R` coordinate
attached. -/
def rppOut (ctx : Ctx) (nx ny nz : ℕ) (x y z : ℕ → ℚ)
    (b1 b2 b3 b4 b5 b6 : Arr3) : Dataset :=
  { nx := nx, ny := ny, nz := nz, x := x, y := y, z := z,
    vars3 := [("density", b1), ("velocity1", b2), ("velocity2", b3),
              ("velocity3", b4), ("pressure", b5),
              ("gravitational_potential", b6),
              ("Pturb", ptArrOf b1 b4),
              ("gz_sg", gzArrOf nz (z 1 - z 0) b6)],
    vars2 := [("Pgrav", pgArrOf ctx nz z (z 1 - z 0) b1
      (gzArrOf nz (z 1 - z 0) b6)
      (fun i j => ctx.sqrtQ (x i * x i + y j * y j)))],
    coordR := some (fun i j => ctx.sqrtQ (x i * x i + y j * y j)) }

/-- A concrete 2×2×4 base snapshot carrying all six loader fields. -/
def D5 : Dataset :=
  baseDS 2 2 4 (fun i => i) (fun j => j) (fun k => k)
    (constA 2) (constA 1) (constA 1) (constA 3) (constA 1) (constA 0) none

/-! ## Theorems -/

theorem RVal.nan_mul (v : RVal) : RVal.mul .nan v = .nan := by
  cases v <;> rfl

theorem RVal.mul_fin_one (v : RVal) : RVal.mul v (.fin 1) = v := by
  cases v <;> simp [RVal.mul]

theorem RVal.not_isNan_iff (v : RVal) : v.isNan = false ↔ v ≠ .nan := by
  cases v <;> simp [RVal.isNan]

theorem nansumList_all_nan {l : List RVal} (h : ∀ v ∈ l, v = RVal.nan) :
    nansumList l = RVal.fin 0 := by
  unfold nansumList
  have hf : l.filter (fun v => !v.isNan) = [] := by
    rw [List.filter_eq_nil_iff]
    intro a ha
    rw [h a ha]
    simp [RVal.isNan]
  rw [hf]
  rfl

theorem nansumList_no_nan {l : List RVal} (h : ∀ v ∈ l, v ≠ RVal.nan) :
    nansumList l = l.foldl RVal.add (RVal.fin 0) := by
  unfold nansumList
  congr 1
  rw [List.filter_eq_self]
  intro a ha
  simpa using (RVal.not_isNan_iff a).2 (h a ha)

theorem foldl_add_replicate_one (n : ℕ) (q : ℚ) :
    (List.replicate n (RVal.fin 1)).foldl RVal.add (.fin q) = .fin (q + n) := by
  induction n generalizing q with
  | zero => simp
  | succ m ih =>
      rw [List.replicate_succ, List.foldl_cons]
      show (List.replicate m (RVal.fin 1)).foldl RVal.add (.fin (q + 1)) = _
      rw [ih (q + 1)]
      congr 1
      push_cast
      ring

/-- C6: for every position of the non-reduced axes at which the value array
is NaN at every cell along the reduction axis, `wmean` returns NaN at that
position (not zero, and the computation is total, so no exception). -/
theorem wmean_all_missing_nan (arr weights : Arr3) (nz i j : ℕ)
    (h : ∀ k, k < nz → arr i j k = RVal.nan) :
    wmean arr weights nz i j = RVal.nan := by
  unfold wmean
  rw [nansumList_all_nan, nansumList_all_nan]
  · show RVal.div (.fin 0) (.fin 0) = .nan
    simp [RVal.div]
  · intro v hv
    obtain ⟨k, hk, rfl⟩ := List.mem_map.1 hv
    rw [h k (List.mem_range.1 hk)]
    simp [RVal.isNan]
  · intro v hv
    obtain ⟨k, hk, rfl⟩ := List.mem_map.1 hv
    rw [h k (List.mem_range.1 hk)]
    exact RVal.nan_mul _

/-- C6 witness: a concrete 1×1×2 slice that is NaN along the whole z axis. -/
theorem wmean_all_missing_nan_witness :
    (∀ k, k < 2 → (fun (_ _ _ : ℕ) => RVal.nan) 0 0 k = RVal.nan) ∧
      wmean (fun _ _ _ => RVal.nan) (fun _ _ _ => RVal.fin 1) 2 0 0 = RVal.nan :=
  ⟨fun _ _ => rfl,
    wmean_all_missing_nan (fun _ _ _ => RVal.nan) (fun _ _ _ => RVal.fin 1) 2 0 0
      (fun _ _ => rfl)⟩

/-- C7: with unit weights and no missing values, `wmean` equals the
arithmetic mean along the reduced axis. -/
theorem wmean_unit_weights_eq_amean (arr : Arr3) (nz i j : ℕ)
    (h : ∀ k, k < nz → arr i j k ≠ RVal.nan) :
    wmean arr (fun _ _ _ => RVal.fin 1) nz i j = amean arr nz i j := by
  unfold wmean amean
  have hnum : ((List.range nz).map (fun k => (arr i j k).mul (RVal.fin 1))) =
      (List.range nz).map (fun k => arr i j k) := by
    simp [RVal.mul_fin_one]
  have hden : ((List.range nz).map (fun k =>
      if (arr i j k).isNan then RVal.nan else RVal.fin 1)) =
      (List.range nz).map (fun _ => RVal.fin 1) := by
    apply List.map_congr_left
    intro k hk
    have hnn : (arr i j k).isNan = false :=
      (RVal.not_isNan_iff _).2 (h k (List.mem_range.1 hk))
    simp [hnn]
  rw [hnum, hden]
  have h1 : ∀ v ∈ (List.range nz).map (fun k => arr i j k), v ≠ RVal.nan := by
    intro v hv
    obtain ⟨k, hk, rfl⟩ := List.mem_map.1 hv
    exact h k (List.mem_range.1 hk)
  have h2 : ∀ v ∈ (List.range nz).map (fun (_ : ℕ) => RVal.fin 1), v ≠ RVal.nan := by
    intro v hv
    obtain ⟨k, hk, rfl⟩ := List.mem_map.1 hv
    simp
  rw [nansumList_no_nan h1, nansumList_no_nan h2]
  congr 1
  rw [List.map_const', List.length_range, foldl_add_replicate_one nz 0]
  congr 1
  ring

/-- C7 witness: a concrete 1×1×2 slice with values 1 and 3; both sides are 2. -/
theorem wmean_unit_weights_eq_amean_witness :
    (∀ k, k < 2 → (fun (_ _ k : ℕ) => RVal.fin (1 + 2 * k)) 0 0 k ≠ RVal.nan) ∧
      wmean (fun _ _ k => RVal.fin (1 + 2 * k)) (fun _ _ _ => RVal.fin 1) 2 0 0 =
        amean (fun _ _ k => RVal.fin (1 + 2 * k)) 2 0 0 :=
  ⟨fun _ _ => by simp,
    wmean_unit_weights_eq_amean (fun _ _ k => RVal.fin (1 + 2 * k)) 2 0 0
      (fun _ _ => by simp)⟩

/-- C5: whenever the bracket test of the bisection fails (the product of the
objective at the two endpoints 12.95 and 1e7 is positive, which is exactly
when scipy's bisect raises ValueError), `get_Teq` returns the NaN sentinel
instead of propagating the error. -/
theorem get_Teq_no_bracket (lp : LPthres) (heat_ratio nH : ℚ)
    (h : 0 < (heat_ratio * lp.heatft (1295/100) / nH - lp.coolft (1295/100)) *
      (heat_ratio * lp.heatft 10000000 / nH - lp.coolft 10000000)) :
    lp.get_Teq heat_ratio nH = RVal.nan := by
  unfold LPthres.get_Teq bisect
  rw [if_pos h]

/-- C5 witness: heating identically 0 and cooling identically 1 never cross;
`get_Teq 1 100` is NaN. -/
theorem get_Teq_no_bracket_witness :
    0 < ((1 : ℚ) * lp0.heatft (1295/100) / 100 - lp0.coolft (1295/100)) *
      (1 * lp0.heatft 10000000 / 100 - lp0.coolft 10000000) ∧
      lp0.get_Teq 1 100 = RVal.nan := by
  refine ⟨by norm_num [lp0], get_Teq_no_bracket lp0 1 100 (by norm_num [lp0])⟩

/-- C1 (code evaluated at the failing input): requesting `['sz']` with
`in_place=False` on a dataset holding only the base fields mutates the
original dataset — after the call the caller's object contains the
dependency field `Pturb` it did not contain before, while the returned copy
holds `sz` but not `Pturb`. -/
theorem add_derived_fields_not_in_place_mutates :
    (add_derived_fields ctx0 D1 (.list ["sz"]) false).elim false
        (fun r => dvMem r.1 "Pturb") = true ∧
      dvMem D1 "Pturb" = false ∧
      (add_derived_fields ctx0 D1 (.list ["sz"]) false).elim false
        (fun r => r.2.elim false (fun t => dvMem t "sz" && !(dvMem t "Pturb"))) = true := by
  refine ⟨?_, by decide, ?_⟩ <;> with_unfolding_all decide

/-- C2 (code evaluated at failing inputs): the `sz` prerequisite check tests
membership of `'gz_sg'`, not `'Pturb'`, and the `R` check looks in
`data_vars` although `R` is stored as a coordinate.  Consequences shown:
(1) a `Pturb` equal to 7 everywhere is recomputed and overwritten with
`density*velocity3**2 = 18` although it was already present (because
`gz_sg` was absent); (2) with `gz_sg` present but `Pturb` absent the call
raises (AttributeError) instead of computing the missing prerequisite;
(3) a user-supplied `R` coordinate equal to 5 is recomputed and overwritten
with `sqrt(x**2+y**2) = 0` at the origin cell on a `Pgrav` request. -/
theorem add_derived_fields_prereq_checks_wrong :
    ((add_derived_fields ctx0 D2 (.list ["sz"]) true).elim false
        (fun r => (r.1.vars3.lookup "Pturb").elim false
          (fun g => decide (g 0 0 0 = RVal.fin 18))) = true ∧
      (D2.vars3.lookup "Pturb").elim false
        (fun g => decide (g 0 0 0 = RVal.fin 7)) = true) ∧
      (add_derived_fields ctx0 D2b (.list ["sz"]) true).isNone = true ∧
      ((add_derived_fields ctx0 D2c (.list ["Pgrav"]) true).elim false
        (fun r => r.1.coordR.elim false (fun R => decide (R 0 0 = 0))) = true ∧
        D2c.coordR.elim false (fun R => decide (R 0 0 = 5)) = true) := by
  exact ⟨⟨by with_unfolding_all decide, by with_unfolding_all decide⟩,
    by with_unfolding_all decide,
    by with_unfolding_all decide, by with_unfolding_all decide⟩

theorem add_derived_fields_eq (ctx : Ctx) (d : Dataset) (f : FieldsArg) (ip : Bool) :
    add_derived_fields ctx d f ip = addDFbody ctx (addDFgo ctx 1) d f ip := rfl

theorem blockH_skip (ctx : Ctx) (fields : FieldsArg) (ip : Bool)
    (st : Dataset × Dataset) (h : fmem "H" fields = false) :
    blockH ctx fields ip st = some st := by
  simp [blockH, h]

theorem blockSurf_skip (fields : FieldsArg) (ip : Bool) (dz : ℚ)
    (st : Dataset × Dataset) (h : fmem "surf" fields = false) :
    blockSurf fields ip dz st = some st := by
  simp [blockSurf, h]

theorem blockSz_skip (ctx : Ctx) (callDF : Dataset → FieldsArg → Bool →
    Option (Dataset × Option Dataset)) (fields : FieldsArg) (ip : Bool)
    (st : Dataset × Dataset) (h : fmem "sz" fields = false) :
    blockSz ctx callDF fields ip st = some st := by
  simp [blockSz, h]

theorem blockR_skip (ctx : Ctx) (fields : FieldsArg) (ip : Bool)
    (st : Dataset × Dataset) (h : fmem "R" fields = false) :
    blockR ctx fields ip st = some st := by
  simp [blockR, h]

theorem blockPturb_skip (fields : FieldsArg) (ip : Bool)
    (st : Dataset × Dataset) (h : fmem "Pturb" fields = false) :
    blockPturb fields ip st = some st := by
  simp [blockPturb, h]

theorem blockPgrav_skip (ctx : Ctx) (callDF : Dataset → FieldsArg → Bool →
    Option (Dataset × Option Dataset)) (fields : FieldsArg) (ip : Bool) (dz : ℚ)
    (st : Dataset × Dataset) (h : fmem "Pgrav" fields = false) :
    blockPgrav ctx callDF fields ip dz st = some st := by
  simp [blockPgrav, h]

theorem blockT_skip (ctx : Ctx) (fields : FieldsArg) (ip : Bool)
    (st : Dataset × Dataset) (h : fmem "T" fields = false) :
    blockT ctx fields ip st = some st := by
  simp [blockT, h]

theorem blockGz_skip (fields : FieldsArg) (ip : Bool) (dz : ℚ)
    (st : Dataset × Dataset) (h : fmem "gz_sg" fields = false) :
    blockGz fields ip dz st = some st := by
  simp [blockGz, h]

theorem blockR_run (ctx : Ctx) (fields : FieldsArg) (ip : Bool)
    (st : Dataset × Dataset) (h : fmem "R" fields = true) :
    blockR ctx fields ip st = some (wrR ip st (RlamOf ctx st.1)) := by
  simp [blockR, h]
  rfl

theorem blockPturb_run (fields : FieldsArg) (ip : Bool)
    (st : Dataset × Dataset) (dens v3 : Arr3) (h : fmem "Pturb" fields = true)
    (hdens : st.1.vars3.lookup "density" = some dens)
    (hv3 : st.1.vars3.lookup "velocity3" = some v3) :
    blockPturb fields ip st = some (wr3 ip st "Pturb" (ptArrOf dens v3)) := by
  simp [blockPturb, h, hdens, hv3]
  rfl

theorem blockT_run (ctx : Ctx) (fields : FieldsArg) (ip : Bool)
    (st : Dataset × Dataset) (p dens : Arr3) (h : fmem "T" fields = true)
    (hp : st.1.vars3.lookup "pressure" = some p)
    (hdens : st.1.vars3.lookup "density" = some dens) :
    blockT ctx fields ip st = some (wr3 ip st "T" (tArrOf ctx p dens)) := by
  simp [blockT, h, hp, hdens]
  rfl

theorem blockGz_run (fields : FieldsArg) (ip : Bool) (dz : ℚ)
    (st : Dataset × Dataset) (pot : Arr3) (h : fmem "gz_sg" fields = true)
    (hpot : st.1.vars3.lookup "gravitational_potential" = some pot)
    (hnz : 4 ≤ st.1.nz) :
    blockGz fields ip dz st =
      some (wr3 ip st "gz_sg" (gzArrOf st.1.nz dz pot)) := by
  simp only [blockGz, h, if_true, hpot, Option.pure_def, Option.bind_eq_bind,
    Option.some_bind]
  rw [if_pos hnz]
  rfl

theorem blockGz_fail_pot (fields : FieldsArg) (ip : Bool) (dz : ℚ)
    (st : Dataset × Dataset) (h : fmem "gz_sg" fields = true)
    (hpot : st.1.vars3.lookup "gravitational_potential" = none) :
    blockGz fields ip dz st = none := by
  simp [blockGz, h, hpot]

theorem blockGz_fail_nz (fields : FieldsArg) (ip : Bool) (dz : ℚ)
    (st : Dataset × Dataset) (pot : Arr3) (h : fmem "gz_sg" fields = true)
    (hpot : st.1.vars3.lookup "gravitational_potential" = some pot)
    (hnz : ¬ 4 ≤ st.1.nz) :
    blockGz fields ip dz st = none := by
  simp only [blockGz, h, if_true, hpot, Option.pure_def, Option.bind_eq_bind,
    Option.some_bind]
  rw [if_neg hnz]

theorem blockSz_run_dep (ctx : Ctx) (callDF : Dataset → FieldsArg → Bool →
    Option (Dataset × Option Dataset)) (fields : FieldsArg) (ip : Bool)
    (st : Dataset × Dataset) (dX : Dataset) (ret : Option Dataset)
    (pt dens : Arr3) (h : fmem "sz" fields = true)
    (hgz : dvMem st.1 "gz_sg" = false)
    (hdep : callDF st.1 (.str "Pturb") true = some (dX, ret))
    (hpt : dX.vars3.lookup "Pturb" = some pt)
    (hdens : dX.vars3.lookup "density" = some dens) :
    blockSz ctx callDF fields ip st =
      some (wr2 ip (dX, st.2) "sz" (szArrOf ctx dX.nz dX.z pt dens)) := by
  simp only [blockSz, h, if_true, hgz, Bool.not_false, hdep, Option.pure_def,
    Option.bind_eq_bind, Option.some_bind, hpt, hdens]
  rfl

theorem blockPgrav_run_pp (ctx : Ctx) (callDF : Dataset → FieldsArg → Bool →
    Option (Dataset × Option Dataset)) (fields : FieldsArg) (ip : Bool) (dz : ℚ)
    (st : Dataset × Dataset) (dens gz : Arr3) (Rc : ℕ → ℕ → ℚ)
    (h : fmem "Pgrav" fields = true)
    (hgzmem : dvMem st.1 "gz_sg" = true) (hRmem : dvMem st.1 "R" = true)
    (hdens : st.1.vars3.lookup "density" = some dens)
    (hgz : st.1.vars3.lookup "gz_sg" = some gz)
    (hRc : st.1.coordR = some Rc) :
    blockPgrav ctx callDF fields ip dz st =
      some (wr2 ip st "Pgrav" (pgArrOf ctx st.1.nz st.1.z dz dens gz Rc)) := by
  simp only [blockPgrav, h, if_true, hgzmem, Bool.not_true, Bool.false_eq_true,
    if_false, hRmem, Option.pure_def, Option.bind_eq_bind, Option.some_bind,
    hdens, hgz, hRc]
  rfl

theorem blockPgrav_run_deps (ctx : Ctx) (callDF : Dataset → FieldsArg → Bool →
    Option (Dataset × Option Dataset)) (fields : FieldsArg) (ip : Bool) (dz : ℚ)
    (st : Dataset × Dataset) (dA dB : Dataset) (rA rB : Option Dataset)
    (dens gz : Arr3) (Rc : ℕ → ℕ → ℚ)
    (h : fmem "Pgrav" fields = true)
    (hgzmem : dvMem st.1 "gz_sg" = false)
    (hdepA : callDF st.1 (.str "gz_sg") true = some (dA, rA))
    (hRmem : dvMem dA "R" = false)
    (hdepB : callDF dA (.str "R") true = some (dB, rB))
    (hdens : dB.vars3.lookup "density" = some dens)
    (hgz : dB.vars3.lookup "gz_sg" = some gz)
    (hRc : dB.coordR = some Rc) :
    blockPgrav ctx callDF fields ip dz st =
      some (wr2 ip (dB, st.2) "Pgrav" (pgArrOf ctx dB.nz dB.z dz dens gz Rc)) := by
  simp only [blockPgrav, h, if_true, hgzmem, Bool.not_false, hdepA,
    Option.pure_def, Option.bind_eq_bind, Option.some_bind, hRmem, hdepB,
    hdens, hgz, hRc]
  rfl

theorem blockPgrav_run_gz_dep_R_present (ctx : Ctx)
    (callDF : Dataset → FieldsArg → Bool → Option (Dataset × Option Dataset))
    (fields : FieldsArg) (ip : Bool) (dz : ℚ)
    (st : Dataset × Dataset) (dA : Dataset) (rA : Option Dataset)
    (dens gz : Arr3) (Rc : ℕ → ℕ → ℚ)
    (h : fmem "Pgrav" fields = true)
    (hgzmem : dvMem st.1 "gz_sg" = false)
    (hdepA : callDF st.1 (.str "gz_sg") true = some (dA, rA))
    (hRmem : dvMem dA "R" = true)
    (hdens : dA.vars3.lookup "density" = some dens)
    (hgz : dA.vars3.lookup "gz_sg" = some gz)
    (hRc : dA.coordR = some Rc) :
    blockPgrav ctx callDF fields ip dz st =
      some (wr2 ip (dA, st.2) "Pgrav" (pgArrOf ctx dA.nz dA.z dz dens gz Rc)) := by
  simp only [blockPgrav, h, if_true, hgzmem, Bool.not_false, hdepA,
    Option.pure_def, Option.bind_eq_bind, Option.some_bind, hRmem,
    Bool.not_true, Bool.false_eq_true, if_false, hdens, hgz, hRc]
  rfl

theorem blockPgrav_run_gz_present_R_dep (ctx : Ctx)
    (callDF : Dataset → FieldsArg → Bool → Option (Dataset × Option Dataset))
    (fields : FieldsArg) (ip : Bool) (dz : ℚ)
    (st : Dataset × Dataset) (dB : Dataset) (rB : Option Dataset)
    (dens gz : Arr3) (Rc : ℕ → ℕ → ℚ)
    (h : fmem "Pgrav" fields = true)
    (hgzmem : dvMem st.1 "gz_sg" = true)
    (hRmem : dvMem st.1 "R" = false)
    (hdepB : callDF st.1 (.str "R") true = some (dB, rB))
    (hdens : dB.vars3.lookup "density" = some dens)
    (hgz : dB.vars3.lookup "gz_sg" = some gz)
    (hRc : dB.coordR = some Rc) :
    blockPgrav ctx callDF fields ip dz st =
      some (wr2 ip (dB, st.2) "Pgrav" (pgArrOf ctx dB.nz dB.z dz dens gz Rc)) := by
  simp only [blockPgrav, h, if_true, hgzmem, Bool.not_true, Bool.false_eq_true,
    if_false, hRmem, Bool.not_false, hdepB, Option.pure_def,
    Option.bind_eq_bind, Option.some_bind, hdens, hgz, hRc]
  rfl

theorem fmem_gz1 : fmem "H" (FieldsArg.list ["gz_sg"]) = false := by decide
theorem fmem_gz2 : fmem "surf" (FieldsArg.list ["gz_sg"]) = false := by decide
theorem fmem_gz3 : fmem "sz" (FieldsArg.list ["gz_sg"]) = false := by decide
theorem fmem_gz4 : fmem "R" (FieldsArg.list ["gz_sg"]) = false := by decide
theorem fmem_gz5 : fmem "Pturb" (FieldsArg.list ["gz_sg"]) = false := by decide
theorem fmem_gz6 : fmem "Pgrav" (FieldsArg.list ["gz_sg"]) = false := by decide
theorem fmem_gz7 : fmem "T" (FieldsArg.list ["gz_sg"]) = false := by decide
theorem fmem_gz8 : fmem "gz_sg" (FieldsArg.list ["gz_sg"]) = true := by decide

/-- C3 (amended): on a uniform z grid with spacing d0 and the linear
potential profile Phi(z) = a*z + b, the computed `gz_sg` is the constant
`-2a` at every cell, boundary cells included (the source divides the
centered difference Phi(z-1) - Phi(z+1) by dz, not by 2*dz, and the
one-sided 3,-3,1 extrapolation reproduces the same constant exactly). -/
theorem gz_sg_linear_run (ctx : Ctx) (d : Dataset) (a b d0 : ℚ) (pot : Arr3)
    (hnx : 2 ≤ d.nx) (hny : 2 ≤ d.ny) (hnz : 4 ≤ d.nz) (hd0 : d0 ≠ 0)
    (hpot : d.vars3.lookup "gravitational_potential" = some pot)
    (hz : ∀ k : ℕ, d.z k = d.z 0 + k * d0)
    (hlin : ∀ i j k, pot i j k = RVal.fin (a * d.z k + b)) :
    ∃ arr, add_derived_fields ctx d (.list ["gz_sg"]) true =
        some (dvSet3 d "gz_sg" arr, none) ∧
      ∀ i j k, arr i j k = RVal.fin (-(2 * a)) := by
  rw [add_derived_fields_eq]
  unfold addDFbody
  rw [if_pos ⟨hnx, hny, le_trans (by norm_num) hnz⟩]
  simp only [blockH_skip, blockSurf_skip, blockSz_skip, blockR_skip,
    blockPturb_skip, blockPgrav_skip, blockT_skip, fmem_gz1, fmem_gz2, fmem_gz3,
    fmem_gz4, fmem_gz5, fmem_gz6, fmem_gz7, fmem_gz8, Option.pure_def,
    Option.bind_eq_bind, Option.some_bind]
  rw [blockGz_run _ _ _ _ pot fmem_gz8 hpot hnz]
  simp only [Option.some_bind, wr3, if_true, eq_self_iff_true]
  refine ⟨_, rfl, ?_⟩
  intro i j k
  have hdz : d.z 1 - d.z 0 = d0 := by
    rw [hz 1, hz 0]
    push_cast
    ring
  have hzq : ∀ m : ℕ, m ≤ d.nz → (((d.nz - m : ℕ) : ℚ)) = (d.nz : ℚ) - m := by
    intro m hm
    push_cast [Nat.cast_sub hm]
    ring
  simp only [gzArrOf, hdz]
  by_cases hk0 : k = 0
  · subst hk0
    rw [if_pos rfl, if_neg (by omega)]
    rw [hlin i j 0, hlin i j 1, hlin i j 2, hz 1, hz 2]
    simp only [RVal.mul, RVal.sub, RVal.neg, RVal.add, RVal.div]
    rw [if_neg hd0]
    congr 1
    push_cast
    field_simp
    ring
  · by_cases hkn : k = d.nz - 1
    · rw [if_neg hk0, if_pos hkn, hkn]
      have e1 : d.nz - 1 - 1 = d.nz - 2 := by omega
      rw [e1]
      rw [hlin i j (d.nz - 2), hlin i j (d.nz - 1), hlin i j (d.nz - 3),
        hz (d.nz - 1), hz (d.nz - 2), hz (d.nz - 3)]
      rw [hzq 1 (by omega), hzq 2 (by omega), hzq 3 (by omega)]
      simp only [RVal.mul, RVal.sub, RVal.neg, RVal.add, RVal.div]
      rw [if_neg hd0]
      congr 1
      field_simp
      ring
    · rw [if_neg hk0, if_neg hkn]
      rw [hlin i j (k - 1), hlin i j (k + 1), hz (k - 1), hz (k + 1)]
      have e1 : ((k - 1 : ℕ) : ℚ) = (k : ℚ) - 1 := by
        push_cast [Nat.cast_sub (by omega : 1 ≤ k)]
        ring
      rw [e1]
      simp only [RVal.mul, RVal.sub, RVal.neg, RVal.add, RVal.div]
      rw [if_neg hd0]
      congr 1
      push_cast
      field_simp
      ring

/-- C3 counterexample: on the concrete linear profile Phi(z) = z (a = 1)
over z = 0,1,2,3, the computed `gz_sg` is -2 at the interior cells and at
both boundary cells, but the claim says the constant should be -a = -1. -/
theorem gz_sg_linear_not_minus_a :
    ((add_derived_fields ctx0 D3 (.list ["gz_sg"]) true).bind
        (fun r => (r.1.vars3.lookup "gz_sg").map (fun g => g 0 0 1))) =
      some (RVal.fin (-2)) ∧
    ((add_derived_fields ctx0 D3 (.list ["gz_sg"]) true).bind
        (fun r => (r.1.vars3.lookup "gz_sg").map (fun g => g 0 0 0))) =
      some (RVal.fin (-2)) ∧
    ((add_derived_fields ctx0 D3 (.list ["gz_sg"]) true).bind
        (fun r => (r.1.vars3.lookup "gz_sg").map (fun g => g 0 0 3))) =
      some (RVal.fin (-2)) ∧
    RVal.fin (-2) ≠ RVal.fin (-1) := by
  refine ⟨?_, ?_, ?_, ?_⟩ <;> with_unfolding_all decide

/-- C3 witness: the amended theorem applied to the concrete dataset `D3`
(a = 1, b = 0, spacing 1). -/
theorem gz_sg_linear_run_witness :
    ∃ arr, add_derived_fields ctx0 D3 (.list ["gz_sg"]) true =
        some (dvSet3 D3 "gz_sg" arr, none) ∧
      ∀ i j k, arr i j k = RVal.fin (-(2 * 1)) :=
  gz_sg_linear_run ctx0 D3 1 0 1 (fun _ _ k => RVal.fin k)
    (by decide) (by decide) (by decide) (by norm_num) rfl
    (fun k => by simp [D3, D1]) (fun i j k => by simp [D3, D1])

theorem names_setA (l : List (String × α)) (k : String) (v : α) :
    (setA l k v).map Prod.fst =
      if (l.map Prod.fst).contains k then l.map Prod.fst
      else l.map Prod.fst ++ [k] := by
  unfold setA
  by_cases h : (l.map Prod.fst).contains k
  · rw [if_pos h, if_pos h, List.map_map]
    apply List.map_congr_left
    intro p _
    by_cases hp : p.1 = k
    · simp [Function.comp, beq_iff_eq.2 hp, hp]
    · simp [Function.comp, beq_eq_false_iff_ne.2 hp]
  · rw [if_neg h, if_neg h]
    simp

theorem lookup_map_replace_self (k : String) (v : α) :
    ∀ (l : List (String × α)), (l.map Prod.fst).contains k = true →
      (l.map (fun p => if p.1 == k then (k, v) else p)).lookup k = some v := by
  intro l hl
  induction l with
  | nil => simp at hl
  | cons p t ih =>
      obtain ⟨pk, pv⟩ := p
      simp only [List.map_cons, List.contains_cons, Bool.or_eq_true, beq_iff_eq] at hl
      by_cases hp : pk = k
      · subst hp
        simp
      · have hb : (pk == k) = false := beq_eq_false_iff_ne.2 hp
        have hk : (k == pk) = false := beq_eq_false_iff_ne.2 (fun e => hp e.symm)
        simp only [List.map_cons, hb, Bool.false_eq_true, if_false, List.lookup_cons, hk]
        refine ih ?_
        rcases hl with h1 | h2
        · exact absurd h1.symm hp
        · exact h2

theorem lookup_setA_self (l : List (String × α)) (k : String) (v : α) :
    (setA l k v).lookup k = some v := by
  unfold setA
  by_cases h : (l.map Prod.fst).contains k
  · rw [if_pos h]
    exact lookup_map_replace_self k v l h
  · rw [if_neg h]
    rw [List.lookup_append]
    have hnone : l.lookup k = none := by
      rw [List.lookup_eq_none_iff]
      intro p hp
      by_contra hc
      simp only [bne, Bool.not_eq_true', Bool.not_eq_false, beq_iff_eq] at hc
      exact h (by
        rw [List.contains_iff_exists_mem_beq]
        exact ⟨p.1, List.mem_map_of_mem _ hp, beq_iff_eq.2 hc⟩)
    rw [hnone]
    simp

theorem lookup_map_replace_ne (k k2 : String) (v : α) (hne : k2 ≠ k) :
    ∀ (t : List (String × α)),
      (t.map (fun p => if p.1 == k then (k, v) else p)).lookup k2 = t.lookup k2 := by
  intro t
  induction t with
  | nil => simp
  | cons p t ih =>
      obtain ⟨pk, pv⟩ := p
      by_cases hp : pk = k
      · subst hp
        simp only [List.map_cons, beq_self_eq_true, if_true, List.lookup_cons,
          beq_eq_false_iff_ne.2 hne]
        exact ih
      · simp only [List.map_cons, beq_eq_false_iff_ne.2 hp, Bool.false_eq_true, if_false,
          List.lookup_cons]
        cases hk2 : (k2 == pk) with
        | true => rfl
        | false => exact ih

theorem lookup_setA_ne (l : List (String × α)) (k k2 : String) (v : α)
    (hne : k2 ≠ k) : (setA l k v).lookup k2 = l.lookup k2 := by
  unfold setA
  by_cases h : (l.map Prod.fst).contains k
  · rw [if_pos h]
    exact lookup_map_replace_ne k k2 v hne l
  · rw [if_neg h]
    rw [List.lookup_append]
    have h1 : ([(k, v)] : List (String × α)).lookup k2 = none := by
      simp [List.lookup_cons, beq_eq_false_iff_ne.2 hne]
    rw [h1]
    cases hl : l.lookup k2 <;> simp

theorem lookup_eraseA_ne (l : List (String × α)) (k k2 : String)
    (hne : k2 ≠ k) : (eraseA l k).lookup k2 = l.lookup k2 := by
  unfold eraseA
  induction l with
  | nil => simp
  | cons p t ih =>
      obtain ⟨pk, pv⟩ := p
      by_cases hp : pk = k
      · subst hp
        simp only [List.filter_cons, beq_self_eq_true, Bool.not_true, Bool.false_eq_true,
          if_false, List.lookup_cons, beq_eq_false_iff_ne.2 hne]
        exact ih
      · simp only [List.filter_cons, beq_eq_false_iff_ne.2 hp, Bool.not_false, if_true,
          List.lookup_cons]
        cases hk2 : (k2 == pk) with
        | true => rfl
        | false => exact ih

theorem contains_append (xs ys : List String) (k : String) :
    (xs ++ ys).contains k = (xs.contains k || ys.contains k) := by
  induction xs with
  | nil => simp
  | cons a t ih => simp [List.contains_cons, ih, Bool.or_assoc]

theorem names_eraseA_sub (l : List (String × α)) (k k2 : String) (hne : k2 ≠ k) :
    ((eraseA l k).map Prod.fst).contains k2 = (l.map Prod.fst).contains k2 := by
  unfold eraseA
  induction l with
  | nil => simp
  | cons p t ih =>
      obtain ⟨pk, pv⟩ := p
      by_cases hp : pk = k
      · subst hp
        simp only [List.filter_cons, beq_self_eq_true, Bool.not_true, Bool.false_eq_true,
          if_false, List.map_cons, List.contains_cons, beq_eq_false_iff_ne.2 hne,
          Bool.false_or]
        exact ih
      · simp only [List.filter_cons, beq_eq_false_iff_ne.2 hp, Bool.not_false, if_true,
          List.map_cons, List.contains_cons, ih]

theorem names_setA_contains_self (l : List (String × α)) (k : String) (v : α) :
    ((setA l k v).map Prod.fst).contains k = true := by
  rw [names_setA]
  by_cases h : (l.map Prod.fst).contains k
  · rw [if_pos h]
    exact h
  · rw [if_neg h, contains_append]
    simp

theorem names_setA_contains_ne (l : List (String × α)) (k k2 : String) (v : α)
    (hne : k2 ≠ k) :
    ((setA l k v).map Prod.fst).contains k2 = (l.map Prod.fst).contains k2 := by
  rw [names_setA]
  by_cases h : (l.map Prod.fst).contains k
  · rw [if_pos h]
  · rw [if_neg h, contains_append]
    have h1 : ([k] : List String).contains k2 = false := by
      simp only [List.contains_cons, List.contains_nil, Bool.or_false]
      exact beq_eq_false_iff_ne.2 hne
    rw [h1, Bool.or_false]

theorem dvMem_dvSet3_self (d : Dataset) (k : String) (v : Arr3) :
    dvMem (dvSet3 d k v) k = true := by
  unfold dvMem dvNames dvSet3
  rw [contains_append, names_setA_contains_self]
  rfl

theorem dvMem_dvSet3_ne (d : Dataset) (k k2 : String) (v : Arr3) (hne : k2 ≠ k) :
    dvMem (dvSet3 d k v) k2 = dvMem d k2 := by
  unfold dvMem dvNames dvSet3
  rw [contains_append, contains_append, names_setA_contains_ne _ _ _ _ hne,
    names_eraseA_sub _ _ _ hne]

theorem dvMem_dvSet2_ne (d : Dataset) (k k2 : String) (v : Arr2) (hne : k2 ≠ k) :
    dvMem (dvSet2 d k v) k2 = dvMem d k2 := by
  unfold dvMem dvNames dvSet2
  rw [contains_append, contains_append, names_setA_contains_ne _ _ _ _ hne,
    names_eraseA_sub _ _ _ hne]

theorem lookup3_dvSet3_self (d : Dataset) (k : String) (v : Arr3) :
    (dvSet3 d k v).vars3.lookup k = some v := lookup_setA_self _ _ _

theorem lookup3_dvSet3_ne (d : Dataset) (k k2 : String) (v : Arr3) (hne : k2 ≠ k) :
    (dvSet3 d k v).vars3.lookup k2 = d.vars3.lookup k2 := lookup_setA_ne _ _ _ _ hne

theorem lookup3_dvSet2_ne (d : Dataset) (k k2 : String) (v : Arr2) (hne : k2 ≠ k) :
    (dvSet2 d k v).vars3.lookup k2 = d.vars3.lookup k2 := lookup_eraseA_ne _ _ _ hne

theorem dvSet3_nx (d : Dataset) (k : String) (v : Arr3) : (dvSet3 d k v).nx = d.nx := rfl
theorem dvSet3_ny (d : Dataset) (k : String) (v : Arr3) : (dvSet3 d k v).ny = d.ny := rfl
theorem dvSet3_nz (d : Dataset) (k : String) (v : Arr3) : (dvSet3 d k v).nz = d.nz := rfl
theorem dvSet3_x (d : Dataset) (k : String) (v : Arr3) : (dvSet3 d k v).x = d.x := rfl
theorem dvSet3_y (d : Dataset) (k : String) (v : Arr3) : (dvSet3 d k v).y = d.y := rfl
theorem dvSet3_z (d : Dataset) (k : String) (v : Arr3) : (dvSet3 d k v).z = d.z := rfl
theorem dvSet3_coordR (d : Dataset) (k : String) (v : Arr3) :
    (dvSet3 d k v).coordR = d.coordR := rfl
theorem dvSet2_nx (d : Dataset) (k : String) (v : Arr2) : (dvSet2 d k v).nx = d.nx := rfl
theorem dvSet2_ny (d : Dataset) (k : String) (v : Arr2) : (dvSet2 d k v).ny = d.ny := rfl
theorem dvSet2_nz (d : Dataset) (k : String) (v : Arr2) : (dvSet2 d k v).nz = d.nz := rfl
theorem dvSet2_x (d : Dataset) (k : String) (v : Arr2) : (dvSet2 d k v).x = d.x := rfl
theorem dvSet2_y (d : Dataset) (k : String) (v : Arr2) : (dvSet2 d k v).y = d.y := rfl
theorem dvSet2_z (d : Dataset) (k : String) (v : Arr2) : (dvSet2 d k v).z = d.z := rfl
theorem dvSet2_coordR (d : Dataset) (k : String) (v : Arr2) :
    (dvSet2 d k v).coordR = d.coordR := rfl

theorem fmem_sz1 : fmem "H" (FieldsArg.list ["sz"]) = false := by decide
theorem fmem_sz2 : fmem "surf" (FieldsArg.list ["sz"]) = false := by decide
theorem fmem_sz3 : fmem "sz" (FieldsArg.list ["sz"]) = true := by decide
theorem fmem_sz4 : fmem "R" (FieldsArg.list ["sz"]) = false := by decide
theorem fmem_sz5 : fmem "Pturb" (FieldsArg.list ["sz"]) = false := by decide
theorem fmem_sz6 : fmem "Pgrav" (FieldsArg.list ["sz"]) = false := by decide
theorem fmem_sz7 : fmem "T" (FieldsArg.list ["sz"]) = false := by decide
theorem fmem_sz8 : fmem "gz_sg" (FieldsArg.list ["sz"]) = false := by decide

theorem fmem_pt1 : fmem "H" (FieldsArg.str "Pturb") = false := by decide
theorem fmem_pt2 : fmem "surf" (FieldsArg.str "Pturb") = false := by decide
theorem fmem_pt3 : fmem "sz" (FieldsArg.str "Pturb") = false := by decide
theorem fmem_pt4 : fmem "R" (FieldsArg.str "Pturb") = false := by decide
theorem fmem_pt5 : fmem "Pturb" (FieldsArg.str "Pturb") = true := by decide
theorem fmem_pt6 : fmem "Pgrav" (FieldsArg.str "Pturb") = false := by decide
theorem fmem_pt7 : fmem "T" (FieldsArg.str "Pturb") = false := by decide
theorem fmem_pt8 : fmem "gz_sg" (FieldsArg.str "Pturb") = false := by decide

theorem run_str_Pturb (ctx : Ctx) (d : Dataset) (n : ℕ) (dens w : Arr3)
    (hnx : 2 ≤ d.nx) (hny : 2 ≤ d.ny) (hnz : 2 ≤ d.nz)
    (hdens : d.vars3.lookup "density" = some dens)
    (hv3 : d.vars3.lookup "velocity3" = some w) :
    addDFgo ctx (n+1) d (.str "Pturb") true =
      some (dvSet3 d "Pturb" (ptArrOf dens w), none) := by
  show addDFbody ctx (addDFgo ctx n) d (.str "Pturb") true = _
  unfold addDFbody
  rw [if_pos ⟨hnx, hny, hnz⟩]
  simp only [blockH_skip, blockSurf_skip, blockSz_skip, blockR_skip,
    blockPgrav_skip, blockT_skip, blockGz_skip, fmem_pt1, fmem_pt2, fmem_pt3,
    fmem_pt4, fmem_pt6, fmem_pt7, fmem_pt8, Option.pure_def,
    Option.bind_eq_bind, Option.some_bind]
  rw [blockPturb_run _ _ _ dens w fmem_pt5 hdens hv3]
  simp only [Option.some_bind, wr3, if_true, eq_self_iff_true]

/-- C10 (amended): passing `fields` as a bare string does make each
membership test a substring check, but for the internal dependency call
`add_derived_fields(dat, fields='Pturb', in_place=True)` triggered by an
`sz` request the only block that fires is `Pturb` — capital `'T'` is not a
substring of `'Pturb'` — so the call inserts exactly `Pturb` (and nothing
else, in particular no temperature field `T`) into the original dataset. -/
theorem sz_request_inserts_only_Pturb (ctx : Ctx) (d : Dataset) (dens w : Arr3)
    (hnx : 2 ≤ d.nx) (hny : 2 ≤ d.ny) (hnz : 2 ≤ d.nz)
    (hdens : d.vars3.lookup "density" = some dens)
    (hv3 : d.vars3.lookup "velocity3" = some w)
    (hgz : dvMem d "gz_sg" = false) :
    ∃ PT t, add_derived_fields ctx d (.list ["sz"]) false =
        some (dvSet3 d "Pturb" PT, some t) ∧
      (∀ i j k, PT i j k = (dens i j k).mul ((w i j k).mul (w i j k))) ∧
      dvMem (dvSet3 d "Pturb" PT) "Pturb" = true ∧
      ∀ nm, nm ≠ "Pturb" → dvMem (dvSet3 d "Pturb" PT) nm = dvMem d nm := by
  rw [add_derived_fields_eq]
  unfold addDFbody
  rw [if_pos ⟨hnx, hny, hnz⟩]
  simp only [blockH_skip, blockSurf_skip, blockR_skip, blockPturb_skip,
    blockPgrav_skip, blockT_skip, blockGz_skip, fmem_sz1, fmem_sz2, fmem_sz4,
    fmem_sz5, fmem_sz6, fmem_sz7, fmem_sz8, Option.pure_def,
    Option.bind_eq_bind, Option.some_bind]
  rw [blockSz_run_dep ctx (addDFgo ctx 1) _ false (d, d)
    (dvSet3 d "Pturb" (ptArrOf dens w)) none (ptArrOf dens w) dens fmem_sz3 hgz
    (run_str_Pturb ctx d 0 dens w hnx hny hnz hdens hv3)
    (lookup3_dvSet3_self d "Pturb" (ptArrOf dens w))
    (by rw [lookup3_dvSet3_ne d "Pturb" "density" _ (by decide)]; exact hdens)]
  simp only [Option.some_bind, wr2, Bool.false_eq_true, if_false]
  refine ⟨ptArrOf dens w, _, rfl, fun i j k => rfl,
    dvMem_dvSet3_self d "Pturb" _, ?_⟩
  intro nm hnm
  exact dvMem_dvSet3_ne d "Pturb" nm _ hnm

/-- C10 counterexample: `'T'` is not a substring of `'Pturb'` (the `in`
test is case-sensitive), and on a concrete dataset of the claim's class
(density, pressure, velocity3 present, `gz_sg` absent) requesting `['sz']`
with `in_place=False` inserts `Pturb` but no `T` into the original. -/
theorem sz_request_does_not_insert_T :
    fmem "T" (FieldsArg.str "Pturb") = false ∧
      (add_derived_fields ctx0 D1 (.list ["sz"]) false).elim false
        (fun r => !(dvMem r.1 "T") && dvMem r.1 "Pturb") = true ∧
      dvMem D1 "T" = false := by
  refine ⟨by decide, by with_unfolding_all decide, by decide⟩

/-- C10 witness: the amended theorem applied to the concrete dataset `D1`. -/
theorem sz_request_inserts_only_Pturb_witness :
    ∃ PT t, add_derived_fields ctx0 D1 (.list ["sz"]) false =
        some (dvSet3 D1 "Pturb" PT, some t) ∧
      (∀ i j k, PT i j k = (constA 2 i j k).mul
        ((constA 3 i j k).mul (constA 3 i j k))) ∧
      dvMem (dvSet3 D1 "Pturb" PT) "Pturb" = true ∧
      ∀ nm, nm ≠ "Pturb" → dvMem (dvSet3 D1 "Pturb" PT) nm = dvMem D1 nm :=
  sz_request_inserts_only_Pturb ctx0 D1 (constA 2) (constA 3)
    (by decide) (by decide) (by decide) rfl rfl (by decide)

theorem lookup_map_pair (l : List (ℤ × ℤ)) (f : (ℤ × ℤ) → ℕ) (q : ℤ × ℤ) :
    ((l.map (fun a => (a, f a))).lookup q) = if q ∈ l then some (f q) else none := by
  induction l with
  | nil => simp
  | cons a t ih =>
      by_cases hq : q = a
      · subst hq
        simp [List.lookup_cons]
      · simp only [List.map_cons, List.lookup_cons, beq_eq_false_iff_ne.2 hq, ih,
          List.mem_cons]
        have : (q = a ∨ q ∈ t) ↔ q ∈ t := by
          constructor
          · rintro (h1 | h2)
            · exact absurd h1 hq
            · exact h2
          · exact Or.inr
        rw [if_congr this rfl rfl]

theorem lookup_groupSizes (keys : List (ℤ × ℤ)) (q : ℤ × ℤ) :
    (groupSizes keys).lookup q =
      if 0 < keys.count q then some (keys.count q) else none := by
  unfold groupSizes
  rw [lookup_map_pair]
  by_cases h : q ∈ keys
  · rw [if_pos (List.mem_dedup.2 h), if_pos (List.count_pos_iff.2 h)]
  · rw [if_neg (fun hc => h (List.mem_dedup.1 hc)), if_neg]
    intro hc
    exact h (List.count_pos_iff.1 hc)

/-- C4: under positive cell spacings and with every surviving event mapping
into the grid, `count_SNe` returns the dense grid whose cell (j, i) carries
the number of events with start < time < end (both strict), ambient density
strictly above the threshold, and floor cell key (j, i); cells with zero
surviving events are NaN, not zero. -/
theorem count_SNe_grid (dom : SNDomain) (evs : List SNEvent) (ts te ncrit : ℚ)
    (hdx1 : 0 < dom.dx1) (hdx2 : 0 < dom.dx2)
    (hin : ∀ e ∈ evs, ts < e.time → e.time < te → ncrit < e.navg →
      0 ≤ (snKey dom e).1 ∧ (snKey dom e).1 < (dom.Nx2 : ℤ) ∧
        0 ≤ (snKey dom e).2 ∧ (snKey dom e).2 < (dom.Nx1 : ℤ)) :
    ∃ g, count_SNe dom evs ts te ncrit = some g ∧
      ∀ j i : ℕ, g j i =
        (if specSNCount dom evs ts te ncrit j i = 0 then RVal.nan
         else RVal.fin (specSNCount dom evs ts te ncrit j i)) := by
  unfold count_SNe
  rw [if_pos]
  · refine ⟨_, rfl, ?_⟩
    intro j i
    rw [lookup_groupSizes]
    have hcnt : ((evs.filter (fun e => decide (ts < e.time) && decide (e.time < te) &&
        decide (ncrit < e.navg))).map (snKey dom)).count ((j : ℤ), (i : ℤ)) =
        specSNCount dom evs ts te ncrit j i := by
      rw [List.count_eq_countP, List.countP_map, List.countP_filter]
      unfold specSNCount
      apply List.countP_congr
      intro e _
      simp only [Function.comp]
      rw [Bool.and_comm]
    rw [hcnt]
    by_cases hz : specSNCount dom evs ts te ncrit j i = 0
    · rw [if_pos hz, if_neg (by omega)]
    · rw [if_neg hz, if_pos (by omega)]
  · rw [List.all_eq_true]
    intro gp hgp
    obtain ⟨q, hq, rfl⟩ := List.mem_map.1 hgp
    have hqk := List.mem_dedup.1 hq
    obtain ⟨e, he, rfl⟩ := List.mem_map.1 hqk
    obtain ⟨he1, he2⟩ := List.mem_filter.1 he
    simp only [Bool.and_eq_true, decide_eq_true_eq] at he2
    exact decide_eq_true (hin e he1 he2.1.1 he2.1.2 he2.2)

/-- C4 witness: the spec's worked example (two events in cell (0,0) inside
the exclusive window, a third outside it) on the concrete 2×2 domain. -/
theorem count_SNe_grid_witness :
    ∃ g, count_SNe dom0 evs0 0 2 1 = some g ∧
      ∀ j i : ℕ, g j i =
        (if specSNCount dom0 evs0 0 2 1 j i = 0 then RVal.nan
         else RVal.fin (specSNCount dom0 evs0 0 2 1 j i)) :=
  count_SNe_grid dom0 evs0 0 2 1 (by norm_num [dom0]) (by norm_num [dom0])
    (by with_unfolding_all decide)

theorem fmem_pg1 : fmem "H" (FieldsArg.list ["Pgrav"]) = false := by decide
theorem fmem_pg2 : fmem "surf" (FieldsArg.list ["Pgrav"]) = false := by decide
theorem fmem_pg3 : fmem "sz" (FieldsArg.list ["Pgrav"]) = false := by decide
theorem fmem_pg4 : fmem "R" (FieldsArg.list ["Pgrav"]) = false := by decide
theorem fmem_pg5 : fmem "Pturb" (FieldsArg.list ["Pgrav"]) = false := by decide
theorem fmem_pg6 : fmem "Pgrav" (FieldsArg.list ["Pgrav"]) = true := by decide
theorem fmem_pg7 : fmem "T" (FieldsArg.list ["Pgrav"]) = false := by decide
theorem fmem_pg8 : fmem "gz_sg" (FieldsArg.list ["Pgrav"]) = false := by decide

theorem fmem_r1 : fmem "H" (FieldsArg.str "R") = false := by decide
theorem fmem_r2 : fmem "surf" (FieldsArg.str "R") = false := by decide
theorem fmem_r3 : fmem "sz" (FieldsArg.str "R") = false := by decide
theorem fmem_r4 : fmem "R" (FieldsArg.str "R") = true := by decide
theorem fmem_r5 : fmem "Pturb" (FieldsArg.str "R") = false := by decide
theorem fmem_r6 : fmem "Pgrav" (FieldsArg.str "R") = false := by decide
theorem fmem_r7 : fmem "T" (FieldsArg.str "R") = false := by decide
theorem fmem_r8 : fmem "gz_sg" (FieldsArg.str "R") = false := by decide

theorem fmem_g1 : fmem "H" (FieldsArg.str "gz_sg") = false := by decide
theorem fmem_g2 : fmem "surf" (FieldsArg.str "gz_sg") = false := by decide
theorem fmem_g3 : fmem "sz" (FieldsArg.str "gz_sg") = false := by decide
theorem fmem_g4 : fmem "R" (FieldsArg.str "gz_sg") = false := by decide
theorem fmem_g5 : fmem "Pturb" (FieldsArg.str "gz_sg") = false := by decide
theorem fmem_g6 : fmem "Pgrav" (FieldsArg.str "gz_sg") = false := by decide
theorem fmem_g7 : fmem "T" (FieldsArg.str "gz_sg") = false := by decide
theorem fmem_g8 : fmem "gz_sg" (FieldsArg.str "gz_sg") = true := by decide

theorem names_map_replace (l : List (String × α)) (k : String) (v : α) :
    (l.map (fun p => if p.1 == k then (k, v) else p)).map Prod.fst = l.map Prod.fst := by
  rw [List.map_map]
  apply List.map_congr_left
  intro p _
  by_cases hp : p.1 = k
  · simp [Function.comp, beq_iff_eq.2 hp, hp]
  · simp [Function.comp, beq_eq_false_iff_ne.2 hp]

theorem setA_setA (l : List (String × α)) (k : String) (v v' : α) :
    setA (setA l k v) k v' = setA l k v' := by
  by_cases h : (l.map Prod.fst).contains k
  · unfold setA
    rw [if_pos h, if_pos h]
    rw [if_pos (by rw [names_map_replace]; exact h)]
    rw [List.map_map]
    apply List.map_congr_left
    intro p _
    by_cases hp : p.1 = k
    · simp [Function.comp, beq_iff_eq.2 hp, hp]
    · simp [Function.comp, beq_eq_false_iff_ne.2 hp]
  · have hkey : ∀ p ∈ l, p.1 ≠ k := by
      intro p hp he
      exact h (by
        rw [List.contains_iff_exists_mem_beq]
        exact ⟨p.1, List.mem_map_of_mem _ hp, beq_iff_eq.2 he.symm⟩)
    unfold setA
    rw [if_neg h, if_neg h]
    rw [if_pos (by
      rw [List.map_append, contains_append]
      simp [List.contains_cons])]
    rw [List.map_append]
    have h1 : l.map (fun p => if p.1 == k then (k, v') else p) = l := by
      conv_rhs => rw [← List.map_id l]
      apply List.map_congr_left
      intro p hp
      simp [beq_eq_false_iff_ne.2 (hkey p hp)]
    rw [h1]
    simp

theorem eraseA_eraseA (l : List (String × α)) (k : String) :
    eraseA (eraseA l k) k = eraseA l k := by
  unfold eraseA
  rw [List.filter_filter]
  apply List.filter_congr
  intro p _
  cases hp : (p.1 == k) <;> simp [hp]

theorem dvSet2_dvSet2 (d : Dataset) (k : String) (v v' : Arr2) :
    dvSet2 (dvSet2 d k v) k v' = dvSet2 d k v' := by
  unfold dvSet2
  simp only [setA_setA, eraseA_eraseA]

theorem setCoordR_self (d : Dataset) (v : ℕ → ℕ → ℚ) (h : d.coordR = some v) :
    { d with coordR := some v } = d := by
  cases d with
  | mk nx ny nz x y z v3 v2 cR =>
      cases h
      rfl

theorem dvMem_setR (d : Dataset) (v : Option (ℕ → ℕ → ℚ)) (nm : String) :
    dvMem { d with coordR := v } nm = dvMem d nm := rfl

theorem vars3_setR (d : Dataset) (v : Option (ℕ → ℕ → ℚ)) :
    ({ d with coordR := v }).vars3 = d.vars3 := rfl


theorem run_str_R (ctx : Ctx) (d : Dataset) (n : ℕ)
    (hsz : 2 ≤ d.nx ∧ 2 ≤ d.ny ∧ 2 ≤ d.nz) :
    addDFgo ctx (n+1) d (.str "R") true =
      some ({ d with coordR := some (RlamOf ctx d) }, none) := by
  show addDFbody ctx (addDFgo ctx n) d (.str "R") true = _
  unfold addDFbody
  rw [if_pos hsz]
  simp only [blockH_skip, blockSurf_skip, blockSz_skip, blockPturb_skip,
    blockPgrav_skip, blockT_skip, blockGz_skip, fmem_r1, fmem_r2, fmem_r3,
    fmem_r5, fmem_r6, fmem_r7, fmem_r8, Option.pure_def, Option.bind_eq_bind,
    Option.some_bind]
  rw [blockR_run _ _ _ _ fmem_r4]
  simp only [Option.some_bind, wrR, if_true, eq_self_iff_true]

theorem run_str_gz (ctx : Ctx) (d : Dataset) (n : ℕ) (pot : Arr3)
    (hsz : 2 ≤ d.nx ∧ 2 ≤ d.ny ∧ 2 ≤ d.nz) (hnz4 : 4 ≤ d.nz)
    (hpot : d.vars3.lookup "gravitational_potential" = some pot) :
    addDFgo ctx (n+1) d (.str "gz_sg") true =
      some (dvSet3 d "gz_sg" (gzArrOf d.nz (d.z 1 - d.z 0) pot), none) := by
  show addDFbody ctx (addDFgo ctx n) d (.str "gz_sg") true = _
  unfold addDFbody
  rw [if_pos hsz]
  simp only [blockH_skip, blockSurf_skip, blockSz_skip, blockR_skip,
    blockPturb_skip, blockPgrav_skip, blockT_skip, fmem_g1, fmem_g2, fmem_g3,
    fmem_g4, fmem_g5, fmem_g6, fmem_g7, Option.pure_def, Option.bind_eq_bind,
    Option.some_bind]
  rw [blockGz_run _ _ _ _ pot fmem_g8 hpot hnz4]
  simp only [Option.some_bind, wr3, if_true, eq_self_iff_true]

theorem run_str_gz_fail_pot (ctx : Ctx) (d : Dataset) (n : ℕ)
    (hsz : 2 ≤ d.nx ∧ 2 ≤ d.ny ∧ 2 ≤ d.nz)
    (hpot : d.vars3.lookup "gravitational_potential" = none) :
    addDFgo ctx (n+1) d (.str "gz_sg") true = none := by
  show addDFbody ctx (addDFgo ctx n) d (.str "gz_sg") true = _
  unfold addDFbody
  rw [if_pos hsz]
  simp only [blockH_skip, blockSurf_skip, blockSz_skip, blockR_skip,
    blockPturb_skip, blockPgrav_skip, blockT_skip, fmem_g1, fmem_g2, fmem_g3,
    fmem_g4, fmem_g5, fmem_g6, fmem_g7, Option.pure_def, Option.bind_eq_bind,
    Option.some_bind]
  rw [blockGz_fail_pot _ _ _ _ fmem_g8 hpot]
  rfl

theorem run_str_gz_fail_nz (ctx : Ctx) (d : Dataset) (n : ℕ) (pot : Arr3)
    (hsz : 2 ≤ d.nx ∧ 2 ≤ d.ny ∧ 2 ≤ d.nz) (hnz4 : ¬ 4 ≤ d.nz)
    (hpot : d.vars3.lookup "gravitational_potential" = some pot) :
    addDFgo ctx (n+1) d (.str "gz_sg") true = none := by
  show addDFbody ctx (addDFgo ctx n) d (.str "gz_sg") true = _
  unfold addDFbody
  rw [if_pos hsz]
  simp only [blockH_skip, blockSurf_skip, blockSz_skip, blockR_skip,
    blockPturb_skip, blockPgrav_skip, blockT_skip, fmem_g1, fmem_g2, fmem_g3,
    fmem_g4, fmem_g5, fmem_g6, fmem_g7, Option.pure_def, Option.bind_eq_bind,
    Option.some_bind]
  rw [blockGz_fail_nz _ _ _ _ pot fmem_g8 hpot hnz4]
  rfl

theorem run_fail_size (ctx : Ctx) (d : Dataset) (n : ℕ) (f : FieldsArg) (ip : Bool)
    (h : ¬(2 ≤ d.nx ∧ 2 ≤ d.ny ∧ 2 ≤ d.nz)) :
    addDFgo ctx (n+1) d f ip = none := by
  show addDFbody ctx (addDFgo ctx n) d f ip = _
  unfold addDFbody
  rw [if_neg h]

theorem wr2_true (st : Dataset × Dataset) (k : String) (v : Arr2) :
    wr2 true st k v = (dvSet2 st.1 k v, st.2) := rfl

theorem run_Pgrav_norm (ctx : Ctx) (d : Dataset)
    (hsz : 2 ≤ d.nx ∧ 2 ≤ d.ny ∧ 2 ≤ d.nz) :
    add_derived_fields ctx d (.list ["Pgrav"]) true =
      (blockPgrav ctx (addDFgo ctx 1) (.list ["Pgrav"]) true (d.z 1 - d.z 0)
        (d, d)).bind (fun st6 => some (st6.1, none)) := by
  rw [add_derived_fields_eq]
  unfold addDFbody
  rw [if_pos hsz]
  simp only [blockH_skip, blockSurf_skip, blockSz_skip, blockR_skip,
    blockPturb_skip, blockT_skip, blockGz_skip, fmem_pg1, fmem_pg2, fmem_pg3,
    fmem_pg4, fmem_pg5, fmem_pg7, fmem_pg8, Option.pure_def, Option.bind_eq_bind,
    Option.some_bind, if_true, eq_self_iff_true]

theorem blockH_congr (ctx : Ctx) (f1 f2 : FieldsArg) (ip : Bool)
    (st : Dataset × Dataset) (h : fmem "H" f1 = fmem "H" f2) :
    blockH ctx f1 ip st = blockH ctx f2 ip st := by
  unfold blockH
  rw [h]

theorem blockSurf_congr (f1 f2 : FieldsArg) (ip : Bool) (dz : ℚ)
    (st : Dataset × Dataset) (h : fmem "surf" f1 = fmem "surf" f2) :
    blockSurf f1 ip dz st = blockSurf f2 ip dz st := by
  unfold blockSurf
  rw [h]

theorem blockSz_congr (ctx : Ctx) (callDF : Dataset → FieldsArg → Bool →
    Option (Dataset × Option Dataset)) (f1 f2 : FieldsArg) (ip : Bool)
    (st : Dataset × Dataset) (h : fmem "sz" f1 = fmem "sz" f2) :
    blockSz ctx callDF f1 ip st = blockSz ctx callDF f2 ip st := by
  unfold blockSz
  rw [h]

theorem blockR_congr (ctx : Ctx) (f1 f2 : FieldsArg) (ip : Bool)
    (st : Dataset × Dataset) (h : fmem "R" f1 = fmem "R" f2) :
    blockR ctx f1 ip st = blockR ctx f2 ip st := by
  unfold blockR
  rw [h]

theorem blockPturb_congr (f1 f2 : FieldsArg) (ip : Bool)
    (st : Dataset × Dataset) (h : fmem "Pturb" f1 = fmem "Pturb" f2) :
    blockPturb f1 ip st = blockPturb f2 ip st := by
  unfold blockPturb
  rw [h]

theorem blockPgrav_congr (ctx : Ctx) (callDF : Dataset → FieldsArg → Bool →
    Option (Dataset × Option Dataset)) (f1 f2 : FieldsArg) (ip : Bool) (dz : ℚ)
    (st : Dataset × Dataset) (h : fmem "Pgrav" f1 = fmem "Pgrav" f2) :
    blockPgrav ctx callDF f1 ip dz st = blockPgrav ctx callDF f2 ip dz st := by
  unfold blockPgrav
  rw [h]

theorem blockT_congr (ctx : Ctx) (f1 f2 : FieldsArg) (ip : Bool)
    (st : Dataset × Dataset) (h : fmem "T" f1 = fmem "T" f2) :
    blockT ctx f1 ip st = blockT ctx f2 ip st := by
  unfold blockT
  rw [h]

theorem blockGz_congr (f1 f2 : FieldsArg) (ip : Bool) (dz : ℚ)
    (st : Dataset × Dataset) (h : fmem "gz_sg" f1 = fmem "gz_sg" f2) :
    blockGz f1 ip dz st = blockGz f2 ip dz st := by
  unfold blockGz
  rw [h]

theorem addDFgo_fields_congr (ctx : Ctx) (n : ℕ) (f1 f2 : FieldsArg)
    (h : ∀ nm, fmem nm f1 = fmem nm f2) (d : Dataset) (ip : Bool) :
    addDFgo ctx n d f1 ip = addDFgo ctx n d f2 ip := by
  cases n with
  | zero => rfl
  | succ m =>
      show addDFbody ctx (addDFgo ctx m) d f1 ip =
        addDFbody ctx (addDFgo ctx m) d f2 ip
      unfold addDFbody
      have e1 : ∀ st, blockH ctx f1 ip st = blockH ctx f2 ip st :=
        fun st => blockH_congr _ _ _ _ _ (h "H")
      have e2 : ∀ dz st, blockSurf f1 ip dz st = blockSurf f2 ip dz st :=
        fun dz st => blockSurf_congr _ _ _ _ _ (h "surf")
      have e3 : ∀ st, blockSz ctx (addDFgo ctx m) f1 ip st =
          blockSz ctx (addDFgo ctx m) f2 ip st :=
        fun st => blockSz_congr _ _ _ _ _ _ (h "sz")
      have e4 : ∀ st, blockR ctx f1 ip st = blockR ctx f2 ip st :=
        fun st => blockR_congr _ _ _ _ _ (h "R")
      have e5 : ∀ st, blockPturb f1 ip st = blockPturb f2 ip st :=
        fun st => blockPturb_congr _ _ _ _ (h "Pturb")
      have e6 : ∀ dz st, blockPgrav ctx (addDFgo ctx m) f1 ip dz st =
          blockPgrav ctx (addDFgo ctx m) f2 ip dz st :=
        fun dz st => blockPgrav_congr _ _ _ _ _ _ _ (h "Pgrav")
      have e7 : ∀ st, blockT ctx f1 ip st = blockT ctx f2 ip st :=
        fun st => blockT_congr _ _ _ _ _ (h "T")
      have e8 : ∀ dz st, blockGz f1 ip dz st = blockGz f2 ip dz st :=
        fun dz st => blockGz_congr _ _ _ _ _ (h "gz_sg")
      simp only [e1, e2, e3, e4, e5, e6, e7, e8]

theorem fmem_dup_Pgrav (nm : String) :
    fmem nm (.list ["Pgrav", "Pgrav"]) = fmem nm (.list ["Pgrav"]) := by
  show (["Pgrav", "Pgrav"].contains nm) = (["Pgrav"].contains nm)
  simp only [List.contains_cons, List.contains_nil]
  cases nm == "Pgrav" <;> rfl

theorem pgrav_on_result (ctx : Ctx) (X : Dataset) (dens gz : Arr3)
    (Rc : ℕ → ℕ → ℚ)
    (hsz : 2 ≤ X.nx ∧ 2 ≤ X.ny ∧ 2 ≤ X.nz)
    (hgzmem : dvMem X "gz_sg" = true) (hRmem : dvMem X "R" = true)
    (hdens : X.vars3.lookup "density" = some dens)
    (hgzl : X.vars3.lookup "gz_sg" = some gz)
    (hRc : X.coordR = some Rc)
    (hfix : dvSet2 X "Pgrav"
      (pgArrOf ctx X.nz X.z (X.z 1 - X.z 0) dens gz Rc) = X) :
    add_derived_fields ctx X (.list ["Pgrav"]) true = some (X, none) := by
  rw [run_Pgrav_norm ctx X hsz,
    blockPgrav_run_pp ctx (addDFgo ctx 1) _ true _ (X, X) dens gz Rc fmem_pg6
      hgzmem hRmem hdens hgzl hRc]
  simp only [Option.some_bind, wr2_true]
  rw [hfix]

theorem pgrav_on_result_Rdep (ctx : Ctx) (X : Dataset) (dens gz : Arr3)
    (hsz : 2 ≤ X.nx ∧ 2 ≤ X.ny ∧ 2 ≤ X.nz)
    (hgzmem : dvMem X "gz_sg" = true) (hRmem : dvMem X "R" = false)
    (hdens : X.vars3.lookup "density" = some dens)
    (hgzl : X.vars3.lookup "gz_sg" = some gz)
    (hRc : X.coordR = some (RlamOf ctx X))
    (hfix : dvSet2 X "Pgrav"
      (pgArrOf ctx X.nz X.z (X.z 1 - X.z 0) dens gz (RlamOf ctx X)) = X) :
    add_derived_fields ctx X (.list ["Pgrav"]) true = some (X, none) := by
  rw [run_Pgrav_norm ctx X hsz,
    blockPgrav_run_gz_present_R_dep ctx (addDFgo ctx 1) _ true _ (X, X)
      { X with coordR := some (RlamOf ctx X) } none dens gz (RlamOf ctx X)
      fmem_pg6 hgzmem hRmem (run_str_R ctx X 0 hsz)
      (by rw [vars3_setR]; exact hdens)
      (by rw [vars3_setR]; exact hgzl)
      rfl]
  simp only [Option.some_bind, wr2_true]
  rw [setCoordR_self X (RlamOf ctx X) hRc, hfix]

theorem pgrav_rerequest_noop (ctx : Ctx) (dat : Dataset) :
    (add_derived_fields ctx dat (.list ["Pgrav"]) true).bind
        (fun r => add_derived_fields ctx r.1 (.list ["Pgrav"]) true) =
      add_derived_fields ctx dat (.list ["Pgrav"]) true := by
  by_cases hsz : 2 ≤ dat.nx ∧ 2 ≤ dat.ny ∧ 2 ≤ dat.nz
  case neg =>
    have h0 : add_derived_fields ctx dat (.list ["Pgrav"]) true = none :=
      run_fail_size ctx dat 1 _ _ hsz
    rw [h0]
    rfl
  case pos =>
  rw [run_Pgrav_norm ctx dat hsz]
  by_cases hgzmem : dvMem dat "gz_sg" = true
  · by_cases hRmem : dvMem dat "R" = true
    · cases hdens : dat.vars3.lookup "density" with
      | none =>
          rw [show blockPgrav ctx (addDFgo ctx 1) (.list ["Pgrav"]) true
              (dat.z 1 - dat.z 0) (dat, dat) = none by
            simp only [blockPgrav, fmem_pg6, if_true, eq_self_iff_true, hgzmem,
              hRmem, Bool.not_true, Bool.false_eq_true, if_false, Option.pure_def,
              Option.bind_eq_bind, Option.some_bind, hdens, Option.none_bind]]
          rfl
      | some dens =>
        cases hgzl : dat.vars3.lookup "gz_sg" with
        | none =>
            rw [show blockPgrav ctx (addDFgo ctx 1) (.list ["Pgrav"]) true
                (dat.z 1 - dat.z 0) (dat, dat) = none by
              simp only [blockPgrav, fmem_pg6, if_true, eq_self_iff_true, hgzmem,
                hRmem, Bool.not_true, Bool.false_eq_true, if_false, Option.pure_def,
                Option.bind_eq_bind, Option.some_bind, hdens, hgzl,
                Option.none_bind]]
            rfl
        | some gz =>
          cases hRc : dat.coordR with
          | none =>
              rw [show blockPgrav ctx (addDFgo ctx 1) (.list ["Pgrav"]) true
                  (dat.z 1 - dat.z 0) (dat, dat) = none by
                simp only [blockPgrav, fmem_pg6, if_true, eq_self_iff_true, hgzmem,
                  hRmem, Bool.not_true, Bool.false_eq_true, if_false, Option.pure_def,
                  Option.bind_eq_bind, Option.some_bind, hdens, hgzl, hRc,
                  Option.none_bind]]
              rfl
          | some Rc =>
              rw [blockPgrav_run_pp ctx (addDFgo ctx 1) _ true _ (dat, dat)
                dens gz Rc fmem_pg6 hgzmem hRmem hdens hgzl hRc]
              simp only [Option.some_bind, wr2_true]
              apply pgrav_on_result ctx _ dens gz Rc
              · exact hsz
              · rw [dvMem_dvSet2_ne _ _ _ _ (by decide)]
                exact hgzmem
              · rw [dvMem_dvSet2_ne _ _ _ _ (by decide)]
                exact hRmem
              · rw [lookup3_dvSet2_ne _ _ _ _ (by decide)]
                exact hdens
              · rw [lookup3_dvSet2_ne _ _ _ _ (by decide)]
                exact hgzl
              · rw [dvSet2_coordR]
                exact hRc
              · rw [dvSet2_dvSet2]
                rfl
    · rw [Bool.not_eq_true] at hRmem
      cases hdens : dat.vars3.lookup "density" with
      | none =>
          rw [show blockPgrav ctx (addDFgo ctx 1) (.list ["Pgrav"]) true
              (dat.z 1 - dat.z 0) (dat, dat) = none by
            simp only [blockPgrav, fmem_pg6, if_true, eq_self_iff_true, hgzmem,
              Bool.not_true, Bool.false_eq_true, if_false, hRmem, Bool.not_false,
              (run_str_R ctx dat 0 hsz :
                addDFgo ctx 1 dat (.str "R") true =
                  some ({ dat with coordR := some (RlamOf ctx dat) }, none)),
              Option.pure_def, Option.bind_eq_bind, Option.some_bind, vars3_setR,
              hdens, Option.none_bind]]
          rfl
      | some dens =>
        cases hgzl : dat.vars3.lookup "gz_sg" with
        | none =>
            rw [show blockPgrav ctx (addDFgo ctx 1) (.list ["Pgrav"]) true
                (dat.z 1 - dat.z 0) (dat, dat) = none by
              simp only [blockPgrav, fmem_pg6, if_true, eq_self_iff_true, hgzmem,
                Bool.not_true, Bool.false_eq_true, if_false, hRmem, Bool.not_false,
                (run_str_R ctx dat 0 hsz :
                  addDFgo ctx 1 dat (.str "R") true =
                    some ({ dat with coordR := some (RlamOf ctx dat) }, none)),
                Option.pure_def, Option.bind_eq_bind, Option.some_bind, vars3_setR,
                hdens, hgzl, Option.none_bind]]
            rfl
        | some gz =>
            rw [blockPgrav_run_gz_present_R_dep ctx (addDFgo ctx 1) _ true _
              (dat, dat) { dat with coordR := some (RlamOf ctx dat) } none dens gz
              (RlamOf ctx dat) fmem_pg6 hgzmem hRmem (run_str_R ctx dat 0 hsz)
              (by rw [vars3_setR]; exact hdens)
              (by rw [vars3_setR]; exact hgzl)
              rfl]
            simp only [Option.some_bind, wr2_true]
            apply pgrav_on_result_Rdep ctx _ dens gz
            · exact hsz
            · rw [dvMem_dvSet2_ne _ _ _ _ (by decide), dvMem_setR]
              exact hgzmem
            · rw [dvMem_dvSet2_ne _ _ _ _ (by decide), dvMem_setR]
              exact hRmem
            · rw [lookup3_dvSet2_ne _ _ _ _ (by decide), vars3_setR]
              exact hdens
            · rw [lookup3_dvSet2_ne _ _ _ _ (by decide), vars3_setR]
              exact hgzl
            · rfl
            · rw [dvSet2_dvSet2]
              rfl
  · rw [Bool.not_eq_true] at hgzmem
    cases hpot : dat.vars3.lookup "gravitational_potential" with
    | none =>
        rw [show blockPgrav ctx (addDFgo ctx 1) (.list ["Pgrav"]) true
            (dat.z 1 - dat.z 0) (dat, dat) = none by
          simp only [blockPgrav, fmem_pg6, if_true, eq_self_iff_true, hgzmem,
            Bool.not_false,
            (run_str_gz_fail_pot ctx dat 0 hsz hpot :
              addDFgo ctx 1 dat (.str "gz_sg") true = none),
            Option.pure_def, Option.bind_eq_bind, Option.none_bind]]
        rfl
    | some pot =>
      by_cases hnz4 : 4 ≤ dat.nz
      case neg =>
        rw [show blockPgrav ctx (addDFgo ctx 1) (.list ["Pgrav"]) true
            (dat.z 1 - dat.z 0) (dat, dat) = none by
          simp only [blockPgrav, fmem_pg6, if_true, eq_self_iff_true, hgzmem,
            Bool.not_false,
            (run_str_gz_fail_nz ctx dat 0 pot hsz hnz4 hpot :
              addDFgo ctx 1 dat (.str "gz_sg") true = none),
            Option.pure_def, Option.bind_eq_bind, Option.none_bind]]
        rfl
      case pos =>
      cases hdens : dat.vars3.lookup "density" with
      | none =>
          rw [show blockPgrav ctx (addDFgo ctx 1) (.list ["Pgrav"]) true
              (dat.z 1 - dat.z 0) (dat, dat) = none by
            simp only [blockPgrav, fmem_pg6, if_true, eq_self_iff_true, hgzmem,
              Bool.not_false,
              (run_str_gz ctx dat 0 pot hsz hnz4 hpot :
                addDFgo ctx 1 dat (.str "gz_sg") true =
                  some (dvSet3 dat "gz_sg"
                    (gzArrOf dat.nz (dat.z 1 - dat.z 0) pot), none)),
              Option.pure_def, Option.bind_eq_bind, Option.some_bind]
            by_cases hR : dvMem dat "R" = true
            · simp only [dvMem_dvSet3_ne dat "gz_sg" "R" _ (by decide), hR,
                Bool.not_true, Bool.false_eq_true, if_false,
                lookup3_dvSet3_ne dat "gz_sg" "density" _ (by decide), hdens,
                Option.none_bind]
            · rw [Bool.not_eq_true] at hR
              simp only [dvMem_dvSet3_ne dat "gz_sg" "R" _ (by decide), hR,
                Bool.not_false, if_true, eq_self_iff_true,
                (run_str_R ctx (dvSet3 dat "gz_sg"
                    (gzArrOf dat.nz (dat.z 1 - dat.z 0) pot)) 0 hsz :
                  addDFgo ctx 1 (dvSet3 dat "gz_sg"
                      (gzArrOf dat.nz (dat.z 1 - dat.z 0) pot)) (.str "R") true =
                    some ({ dvSet3 dat "gz_sg"
                        (gzArrOf dat.nz (dat.z 1 - dat.z 0) pot) with
                      coordR := some (RlamOf ctx (dvSet3 dat "gz_sg"
                        (gzArrOf dat.nz (dat.z 1 - dat.z 0) pot))) }, none)),
                Option.pure_def, Option.bind_eq_bind, Option.some_bind, vars3_setR,
                lookup3_dvSet3_ne dat "gz_sg" "density" _ (by decide), hdens,
                Option.none_bind]]
          rfl
      | some dens =>
        by_cases hRmem : dvMem dat "R" = true
        · cases hRc : dat.coordR with
          | none =>
              rw [show blockPgrav ctx (addDFgo ctx 1) (.list ["Pgrav"]) true
                  (dat.z 1 - dat.z 0) (dat, dat) = none by
                simp only [blockPgrav, fmem_pg6, if_true, eq_self_iff_true, hgzmem,
                  Bool.not_false,
                  (run_str_gz ctx dat 0 pot hsz hnz4 hpot :
                    addDFgo ctx 1 dat (.str "gz_sg") true =
                      some (dvSet3 dat "gz_sg"
                        (gzArrOf dat.nz (dat.z 1 - dat.z 0) pot), none)),
                  Option.pure_def, Option.bind_eq_bind, Option.some_bind,
                  dvMem_dvSet3_ne dat "gz_sg" "R" _ (by decide), hRmem,
                  Bool.not_true, Bool.false_eq_true, if_false,
                  lookup3_dvSet3_ne dat "gz_sg" "density" _ (by decide), hdens,
                  lookup3_dvSet3_self, dvSet3_coordR, hRc, Option.none_bind]]
              rfl
          | some Rc =>
              rw [blockPgrav_run_gz_dep_R_present ctx (addDFgo ctx 1) _ true _
                (dat, dat) (dvSet3 dat "gz_sg"
                  (gzArrOf dat.nz (dat.z 1 - dat.z 0) pot)) none dens
                (gzArrOf dat.nz (dat.z 1 - dat.z 0) pot) Rc fmem_pg6 hgzmem
                (run_str_gz ctx dat 0 pot hsz hnz4 hpot)
                (by rw [dvMem_dvSet3_ne dat "gz_sg" "R" _ (by decide)]; exact hRmem)
                (by rw [lookup3_dvSet3_ne dat "gz_sg" "density" _ (by decide)]
                    exact hdens)
                (lookup3_dvSet3_self dat "gz_sg" _)
                (by rw [dvSet3_coordR]; exact hRc)]
              simp only [Option.some_bind, wr2_true]
              apply pgrav_on_result ctx _ dens
                (gzArrOf dat.nz (dat.z 1 - dat.z 0) pot) Rc
              · exact hsz
              · rw [dvMem_dvSet2_ne _ _ _ _ (by decide)]
                exact dvMem_dvSet3_self dat "gz_sg" _
              · rw [dvMem_dvSet2_ne _ _ _ _ (by decide),
                  dvMem_dvSet3_ne dat "gz_sg" "R" _ (by decide)]
                exact hRmem
              · rw [lookup3_dvSet2_ne _ _ _ _ (by decide),
                  lookup3_dvSet3_ne dat "gz_sg" "density" _ (by decide)]
                exact hdens
              · rw [lookup3_dvSet2_ne _ _ _ _ (by decide)]
                exact lookup3_dvSet3_self dat "gz_sg" _
              · rw [dvSet2_coordR, dvSet3_coordR]
                exact hRc
              · rw [dvSet2_dvSet2]
                rfl
        · rw [Bool.not_eq_true] at hRmem
          rw [blockPgrav_run_deps ctx (addDFgo ctx 1) _ true _ (dat, dat)
            (dvSet3 dat "gz_sg" (gzArrOf dat.nz (dat.z 1 - dat.z 0) pot))
            { dvSet3 dat "gz_sg" (gzArrOf dat.nz (dat.z 1 - dat.z 0) pot) with
                coordR := some (RlamOf ctx (dvSet3 dat "gz_sg"
                  (gzArrOf dat.nz (dat.z 1 - dat.z 0) pot))) }
            none none dens (gzArrOf dat.nz (dat.z 1 - dat.z 0) pot)
            (RlamOf ctx (dvSet3 dat "gz_sg"
              (gzArrOf dat.nz (dat.z 1 - dat.z 0) pot)))
            fmem_pg6 hgzmem
            (run_str_gz ctx dat 0 pot hsz hnz4 hpot)
            (by rw [dvMem_dvSet3_ne dat "gz_sg" "R" _ (by decide)]; exact hRmem)
            (run_str_R ctx _ 0 hsz)
            (by rw [vars3_setR, lookup3_dvSet3_ne dat "gz_sg" "density" _ (by decide)]
                exact hdens)
            (by rw [vars3_setR]; exact lookup3_dvSet3_self dat "gz_sg" _)
            rfl]
          simp only [Option.some_bind, wr2_true]
          apply pgrav_on_result_Rdep ctx _ dens
            (gzArrOf dat.nz (dat.z 1 - dat.z 0) pot)
          · exact hsz
          · rw [dvMem_dvSet2_ne _ _ _ _ (by decide), dvMem_setR]
            exact dvMem_dvSet3_self dat "gz_sg" _
          · rw [dvMem_dvSet2_ne _ _ _ _ (by decide), dvMem_setR,
              dvMem_dvSet3_ne dat "gz_sg" "R" _ (by decide)]
            exact hRmem
          · rw [lookup3_dvSet2_ne _ _ _ _ (by decide), vars3_setR,
              lookup3_dvSet3_ne dat "gz_sg" "density" _ (by decide)]
            exact hdens
          · rw [lookup3_dvSet2_ne _ _ _ _ (by decide), vars3_setR]
            exact lookup3_dvSet3_self dat "gz_sg" _
          · rfl
          · rw [dvSet2_dvSet2]
            rfl

/-- C8: Requesting 'Pgrav' twice in the same call (fields=['Pgrav','Pgrav'])
produces the same result as requesting it once, and re-running the 'Pgrav'
request on the dataset returned by a first run (in place, so the field is then
already present) returns that dataset unchanged: the engine recomputes the
field from the unchanged inputs and overwrites it with the identical array. -/
theorem pgrav_request_idempotent (ctx : Ctx) (dat : Dataset) (ip : Bool) :
    add_derived_fields ctx dat (.list ["Pgrav", "Pgrav"]) ip =
        add_derived_fields ctx dat (.list ["Pgrav"]) ip ∧
      (add_derived_fields ctx dat (.list ["Pgrav"]) true).bind
          (fun r => add_derived_fields ctx r.1 (.list ["Pgrav"]) true) =
        add_derived_fields ctx dat (.list ["Pgrav"]) true :=
  ⟨addDFgo_fields_congr ctx 2 _ _ fmem_dup_Pgrav dat ip,
   pgrav_rerequest_noop ctx dat⟩

theorem fmem_t1 : fmem "H" (FieldsArg.str "T") = false := by decide
theorem fmem_t2 : fmem "surf" (FieldsArg.str "T") = false := by decide
theorem fmem_t3 : fmem "sz" (FieldsArg.str "T") = false := by decide
theorem fmem_t4 : fmem "R" (FieldsArg.str "T") = false := by decide
theorem fmem_t5 : fmem "Pturb" (FieldsArg.str "T") = false := by decide
theorem fmem_t6 : fmem "Pgrav" (FieldsArg.str "T") = false := by decide
theorem fmem_t7 : fmem "T" (FieldsArg.str "T") = true := by decide
theorem fmem_t8 : fmem "gz_sg" (FieldsArg.str "T") = false := by decide

theorem fmem_rpp1 : fmem "H" (FieldsArg.list ["R", "Pturb", "Pgrav"]) = false := by decide
theorem fmem_rpp2 : fmem "surf" (FieldsArg.list ["R", "Pturb", "Pgrav"]) = false := by decide
theorem fmem_rpp3 : fmem "sz" (FieldsArg.list ["R", "Pturb", "Pgrav"]) = false := by decide
theorem fmem_rpp4 : fmem "R" (FieldsArg.list ["R", "Pturb", "Pgrav"]) = true := by decide
theorem fmem_rpp5 : fmem "Pturb" (FieldsArg.list ["R", "Pturb", "Pgrav"]) = true := by decide
theorem fmem_rpp6 : fmem "Pgrav" (FieldsArg.list ["R", "Pturb", "Pgrav"]) = true := by decide
theorem fmem_rpp7 : fmem "T" (FieldsArg.list ["R", "Pturb", "Pgrav"]) = false := by decide
theorem fmem_rpp8 : fmem "gz_sg" (FieldsArg.list ["R", "Pturb", "Pgrav"]) = false := by decide

theorem wr3_true (st : Dataset × Dataset) (k : String) (v : Arr3) :
    wr3 true st k v = (dvSet3 st.1 k v, st.2) := rfl

theorem wrR_true (st : Dataset × Dataset) (v : ℕ → ℕ → ℚ) :
    wrR true st v = ({ st.1 with coordR := some v }, st.2) := rfl

theorem run_str_T (ctx : Ctx) (d : Dataset) (n : ℕ) (p dens : Arr3)
    (hsz : 2 ≤ d.nx ∧ 2 ≤ d.ny ∧ 2 ≤ d.nz)
    (hp : d.vars3.lookup "pressure" = some p)
    (hdens : d.vars3.lookup "density" = some dens) :
    addDFgo ctx (n+1) d (.str "T") true =
      some (dvSet3 d "T" (tArrOf ctx p dens), none) := by
  show addDFbody ctx (addDFgo ctx n) d (.str "T") true = _
  unfold addDFbody
  rw [if_pos hsz]
  simp only [blockH_skip, blockSurf_skip, blockSz_skip, blockR_skip,
    blockPturb_skip, blockPgrav_skip, blockGz_skip, fmem_t1, fmem_t2, fmem_t3,
    fmem_t4, fmem_t5, fmem_t6, fmem_t8, Option.pure_def,
    Option.bind_eq_bind, Option.some_bind]
  rw [blockT_run _ _ _ _ p dens fmem_t7 hp hdens]
  simp only [Option.some_bind, wr3, if_true, eq_self_iff_true]

theorem run_RPP_base (ctx : Ctx) (n : ℕ) (nx ny nz : ℕ) (x y z : ℕ → ℚ)
    (b1 b2 b3 b4 b5 b6 : Arr3) (cR : Option (ℕ → ℕ → ℚ))
    (hnx : 2 ≤ nx) (hny : 2 ≤ ny) (hnz : 4 ≤ nz) :
    addDFgo ctx (n+2) (baseDS nx ny nz x y z b1 b2 b3 b4 b5 b6 cR)
        (.list ["R", "Pturb", "Pgrav"]) true =
      some (rppOut ctx nx ny nz x y z b1 b2 b3 b4 b5 b6, none) := by
  show addDFbody ctx (addDFgo ctx (n+1)) _ _ true = _
  unfold addDFbody
  rw [if_pos (show
    2 ≤ (baseDS nx ny nz x y z b1 b2 b3 b4 b5 b6 cR).nx ∧
      2 ≤ (baseDS nx ny nz x y z b1 b2 b3 b4 b5 b6 cR).ny ∧
      2 ≤ (baseDS nx ny nz x y z b1 b2 b3 b4 b5 b6 cR).nz from
    ⟨hnx, hny, le_trans (by decide) hnz⟩)]
  simp only [blockH_skip, blockSurf_skip, blockSz_skip, blockT_skip,
    blockGz_skip, fmem_rpp1, fmem_rpp2, fmem_rpp3, fmem_rpp7, fmem_rpp8,
    Option.pure_def, Option.bind_eq_bind, Option.some_bind]
  have hR : blockR ctx (.list ["R", "Pturb", "Pgrav"]) true
      (baseDS nx ny nz x y z b1 b2 b3 b4 b5 b6 cR,
       baseDS nx ny nz x y z b1 b2 b3 b4 b5 b6 cR) =
      some ({ baseDS nx ny nz x y z b1 b2 b3 b4 b5 b6 cR with
          coordR := some (fun i j => ctx.sqrtQ (x i * x i + y j * y j)) },
        baseDS nx ny nz x y z b1 b2 b3 b4 b5 b6 cR) :=
    blockR_run _ _ _ _ fmem_rpp4
  rw [hR]
  simp only [Option.some_bind]
  have hPT : blockPturb (.list ["R", "Pturb", "Pgrav"]) true
      ({ baseDS nx ny nz x y z b1 b2 b3 b4 b5 b6 cR with
          coordR := some (fun i j => ctx.sqrtQ (x i * x i + y j * y j)) },
        baseDS nx ny nz x y z b1 b2 b3 b4 b5 b6 cR) =
      some (dvSet3 { baseDS nx ny nz x y z b1 b2 b3 b4 b5 b6 cR with
          coordR := some (fun i j => ctx.sqrtQ (x i * x i + y j * y j)) }
          "Pturb" (ptArrOf b1 b4),
        baseDS nx ny nz x y z b1 b2 b3 b4 b5 b6 cR) :=
    blockPturb_run _ _ _ b1 b4 fmem_rpp5 rfl rfl
  rw [hPT]
  simp only [Option.some_bind]
  have hPG : blockPgrav ctx (addDFgo ctx (n+1)) (.list ["R", "Pturb", "Pgrav"])
      true ((baseDS nx ny nz x y z b1 b2 b3 b4 b5 b6 cR).z 1 -
        (baseDS nx ny nz x y z b1 b2 b3 b4 b5 b6 cR).z 0)
      (dvSet3 { baseDS nx ny nz x y z b1 b2 b3 b4 b5 b6 cR with
          coordR := some (fun i j => ctx.sqrtQ (x i * x i + y j * y j)) }
          "Pturb" (ptArrOf b1 b4),
        baseDS nx ny nz x y z b1 b2 b3 b4 b5 b6 cR) =
      some (dvSet2
          { dvSet3 (dvSet3 { baseDS nx ny nz x y z b1 b2 b3 b4 b5 b6 cR with
              coordR := some (fun i j => ctx.sqrtQ (x i * x i + y j * y j)) }
              "Pturb" (ptArrOf b1 b4)) "gz_sg" (gzArrOf nz (z 1 - z 0) b6) with
            coordR := some (fun i j => ctx.sqrtQ (x i * x i + y j * y j)) }
          "Pgrav" (pgArrOf ctx nz z (z 1 - z 0) b1 (gzArrOf nz (z 1 - z 0) b6)
            (fun i j => ctx.sqrtQ (x i * x i + y j * y j))),
        baseDS nx ny nz x y z b1 b2 b3 b4 b5 b6 cR) :=
    blockPgrav_run_deps ctx (addDFgo ctx (n+1)) _ true _ _
      (dvSet3 (dvSet3 { baseDS nx ny nz x y z b1 b2 b3 b4 b5 b6 cR with
          coordR := some (fun i j => ctx.sqrtQ (x i * x i + y j * y j)) }
          "Pturb" (ptArrOf b1 b4)) "gz_sg" (gzArrOf nz (z 1 - z 0) b6))
      ({ dvSet3 (dvSet3 { baseDS nx ny nz x y z b1 b2 b3 b4 b5 b6 cR with
          coordR := some (fun i j => ctx.sqrtQ (x i * x i + y j * y j)) }
          "Pturb" (ptArrOf b1 b4)) "gz_sg" (gzArrOf nz (z 1 - z 0) b6) with
        coordR := some (fun i j => ctx.sqrtQ (x i * x i + y j * y j)) })
      none none b1 (gzArrOf nz (z 1 - z 0) b6)
      (fun i j => ctx.sqrtQ (x i * x i + y j * y j))
      fmem_rpp6 rfl
      (run_str_gz ctx _ n b6 ⟨hnx, hny, le_trans (by decide) hnz⟩ hnz rfl)
      rfl
      (run_str_R ctx _ n ⟨hnx, hny, le_trans (by decide) hnz⟩)
      rfl rfl rfl
  rw [hPG]
  simp only [Option.some_bind]
  rfl

theorem procSnap_base (ctx : Ctx) (nx ny nz : ℕ) (x y z : ℕ → ℚ)
    (a1 a2 a3 a4 a5 a6 : Arr3) (cR : Option (ℕ → ℕ → ℚ))
    (hnx : 2 ≤ nx) (hny : 2 ≤ ny) (hnz : 4 ≤ nz) :
    procSnap ctx true (baseDS nx ny nz x y z a1 a2 a3 a4 a5 a6 cR) =
      some (rppOut ctx nx ny nz x y z
        (maskArr (tArrOf ctx a5 a1) a1) (maskArr (tArrOf ctx a5 a1) a2)
        (maskArr (tArrOf ctx a5 a1) a3) (maskArr (tArrOf ctx a5 a1) a4)
        (maskArr (tArrOf ctx a5 a1) a5) a6) := by
  unfold procSnap
  rw [if_pos rfl]
  rw [show (baseDS nx ny nz x y z a1 a2 a3 a4 a5 a6 cR).vars3.lookup
      "gravitational_potential" = some a6 from rfl]
  simp only [Option.pure_def, Option.bind_eq_bind, Option.some_bind]
  have hT : add_derived_fields ctx (baseDS nx ny nz x y z a1 a2 a3 a4 a5 a6 cR)
      (.str "T") true =
      some (dvSet3 (baseDS nx ny nz x y z a1 a2 a3 a4 a5 a6 cR) "T"
        (tArrOf ctx a5 a1), none) := by
    rw [add_derived_fields_eq]
    exact run_str_T ctx _ 1 a5 a1 ⟨hnx, hny, le_trans (by decide) hnz⟩ rfl rfl
  rw [hT]
  simp only [Option.some_bind]
  rw [show (dvSet3 (baseDS nx ny nz x y z a1 a2 a3 a4 a5 a6 cR) "T"
      (tArrOf ctx a5 a1)).vars3.lookup "T" = some (tArrOf ctx a5 a1) from rfl]
  simp only [Option.some_bind]
  have hRPP : add_derived_fields ctx
      (baseDS nx ny nz x y z (maskArr (tArrOf ctx a5 a1) a1)
        (maskArr (tArrOf ctx a5 a1) a2) (maskArr (tArrOf ctx a5 a1) a3)
        (maskArr (tArrOf ctx a5 a1) a4) (maskArr (tArrOf ctx a5 a1) a5) a6 cR)
      (.list ["R", "Pturb", "Pgrav"]) true =
      some (rppOut ctx nx ny nz x y z
        (maskArr (tArrOf ctx a5 a1) a1) (maskArr (tArrOf ctx a5 a1) a2)
        (maskArr (tArrOf ctx a5 a1) a3) (maskArr (tArrOf ctx a5 a1) a4)
        (maskArr (tArrOf ctx a5 a1) a5) a6, none) := by
    rw [add_derived_fields_eq]
    exact run_RPP_base ctx 0 nx ny nz x y z _ _ _ _ _ a6 cR hnx hny hnz
  rw [show dvSet3 (dvDrop (dsWhere (dvSet3
        (baseDS nx ny nz x y z a1 a2 a3 a4 a5 a6 cR) "T" (tArrOf ctx a5 a1))
        (fun i j k => (tArrOf ctx a5 a1 i j k).lt (RVal.fin Twarm))) "T")
      "gravitational_potential" a6 =
      baseDS nx ny nz x y z (maskArr (tArrOf ctx a5 a1) a1)
        (maskArr (tArrOf ctx a5 a1) a2) (maskArr (tArrOf ctx a5 a1) a3)
        (maskArr (tArrOf ctx a5 a1) a4) (maskArr (tArrOf ctx a5 a1) a5) a6 cR
    from rfl]
  rw [hRPP]
  rfl

theorem base_destruct (d : Dataset) (h : IsBaseSnap d) :
    ∃ a1 a2 a3 a4 a5 a6,
      d = baseDS d.nx d.ny d.nz d.x d.y d.z a1 a2 a3 a4 a5 a6 d.coordR := by
  obtain ⟨hn, hv2, -⟩ := h
  cases d with
  | mk nx ny nz x y z v3 v2 cRd =>
    have hv2n : v2 = [] := List.length_eq_zero.mp hv2
    subst hv2n
    rcases v3 with _ | ⟨⟨n1, a1⟩, _ | ⟨⟨n2, a2⟩, _ | ⟨⟨n3, a3⟩, _ | ⟨⟨n4, a4⟩,
      _ | ⟨⟨n5, a5⟩, _ | ⟨⟨n6, a6⟩, t⟩⟩⟩⟩⟩⟩ <;>
      simp [baseNames] at hn
    obtain ⟨e1, e2, e3, e4, e5, e6, e7⟩ := hn
    subst e1
    subst e2
    subst e3
    subst e4
    subst e5
    subst e6
    subst e7
    exact ⟨a1, a2, a3, a4, a5, a6, rfl⟩

theorem lookup_map_keyval (l : List (String × Arr3)) (g : String → Arr3 → Arr3)
    (k : String) :
    (l.map (fun p => (p.1, g p.1 p.2))).lookup k = (l.lookup k).map (g k) := by
  induction l with
  | nil => rfl
  | cons p t ih =>
      by_cases hp : k = p.1
      · subst hp
        simp only [List.map_cons, List.lookup, beq_self_eq_true]
        rfl
      · simp only [List.map_cons, List.lookup, beq_eq_false_iff_ne.2 hp]
        simpa using ih

theorem lookup3_dsAdd (a b : Dataset) (k : String) :
    (dsAdd a b).vars3.lookup k = (a.vars3.lookup k).map
      (fun arr => fun i j kk => (arr i j kk).add
        (((b.vars3.lookup k).getD (fun _ _ _ => RVal.nan)) i j kk)) := by
  show (a.vars3.map _).lookup k = _
  exact lookup_map_keyval a.vars3
    (fun nm arr => fun i j kk => (arr i j kk).add
      (((b.vars3.lookup nm).getD (fun _ _ _ => RVal.nan)) i j kk)) k

theorem specSum_append_one (L : List RVal) (v : RVal) (h : L ≠ []) :
    specSum (L ++ [v]) = (specSum L).add v := by
  cases L with
  | nil => exact absurd rfl h
  | cons a as =>
      show (as ++ [v]).foldl RVal.add a = ((as.foldl RVal.add a).add v)
      rw [List.foldl_append]
      rfl

theorem specSum_map_append (f : Dataset → RVal) (L : List Dataset) (s : Dataset)
    (h : L ≠ []) :
    specSum ((L ++ [s]).map f) = (specSum (L.map f)).add (f s) := by
  rw [List.map_append]
  exact specSum_append_one _ _ (by simpa using h)

theorem rpp_lookup (ctx : Ctx) (nx ny nz : ℕ) (x y z : ℕ → ℚ)
    (a1 a2 a3 a4 a5 a6 : Arr3) (cR : Option (ℕ → ℕ → ℚ)) (f : String)
    (hf : f ∈ baseNames) :
    ∃ arr, (rppOut ctx nx ny nz x y z
        (maskArr (tArrOf ctx a5 a1) a1) (maskArr (tArrOf ctx a5 a1) a2)
        (maskArr (tArrOf ctx a5 a1) a3) (maskArr (tArrOf ctx a5 a1) a4)
        (maskArr (tArrOf ctx a5 a1) a5) a6).vars3.lookup f = some arr ∧
      ∀ i j k, arr i j k =
        specFilteredCell ctx (baseDS nx ny nz x y z a1 a2 a3 a4 a5 a6 cR)
          f i j k := by
  simp only [baseNames, List.mem_cons, List.not_mem_nil, or_false] at hf
  rcases hf with rfl | rfl | rfl | rfl | rfl | rfl
  · exact ⟨_, rfl, fun i j k => rfl⟩
  · exact ⟨_, rfl, fun i j k => rfl⟩
  · exact ⟨_, rfl, fun i j k => rfl⟩
  · exact ⟨_, rfl, fun i j k => rfl⟩
  · exact ⟨_, rfl, fun i j k => rfl⟩
  · exact ⟨_, rfl, fun i j k => rfl⟩

theorem sumAux (ctx : Ctx) (rest : List Dataset) :
    ∀ (acc : Dataset) (prev : List Dataset), prev ≠ [] →
      (∀ s ∈ rest, IsBaseSnap s) →
      (∀ f ∈ baseNames, ∃ arr, acc.vars3.lookup f = some arr ∧
        ∀ i j k, arr i j k =
          specSum (prev.map (fun d => specFilteredCell ctx d f i j k))) →
      ∃ D, (rest.foldlM (fun acc s => do
          let t ← procSnap ctx true s
          pure (dsAdd acc t)) acc) = some D ∧
        ∀ f ∈ baseNames, ∃ arr, D.vars3.lookup f = some arr ∧
          ∀ i j k, arr i j k =
            specSum ((prev ++ rest).map
              (fun d => specFilteredCell ctx d f i j k)) := by
  induction rest with
  | nil =>
      intro acc prev hprev hall hinv
      exact ⟨acc, rfl, by simpa using hinv⟩
  | cons s rs ih =>
      intro acc prev hprev hall hinv
      obtain ⟨a1, a2, a3, a4, a5, a6, hs⟩ :=
        base_destruct s (hall s (List.mem_cons_self _ _))
      obtain ⟨-, -, hsx, hsy, hsz⟩ := hall s (List.mem_cons_self _ _)
      have hproc : procSnap ctx true s =
          some (rppOut ctx s.nx s.ny s.nz s.x s.y s.z
            (maskArr (tArrOf ctx a5 a1) a1) (maskArr (tArrOf ctx a5 a1) a2)
            (maskArr (tArrOf ctx a5 a1) a3) (maskArr (tArrOf ctx a5 a1) a4)
            (maskArr (tArrOf ctx a5 a1) a5) a6) := by
        conv_lhs => rw [hs]
        exact procSnap_base ctx s.nx s.ny s.nz s.x s.y s.z a1 a2 a3 a4 a5 a6
          s.coordR hsx hsy hsz
      rw [List.foldlM_cons, hproc]
      simp only [Option.pure_def, Option.bind_eq_bind, Option.some_bind]
      have hinv2 : ∀ f ∈ baseNames, ∃ arr,
          (dsAdd acc (rppOut ctx s.nx s.ny s.nz s.x s.y s.z
            (maskArr (tArrOf ctx a5 a1) a1) (maskArr (tArrOf ctx a5 a1) a2)
            (maskArr (tArrOf ctx a5 a1) a3) (maskArr (tArrOf ctx a5 a1) a4)
            (maskArr (tArrOf ctx a5 a1) a5) a6)).vars3.lookup f = some arr ∧
          ∀ i j k, arr i j k =
            specSum ((prev ++ [s]).map
              (fun d => specFilteredCell ctx d f i j k)) := by
        intro f hf
        obtain ⟨arrA, haA, hpA⟩ := hinv f hf
        obtain ⟨arrT, haT, hpT⟩ := rpp_lookup ctx s.nx s.ny s.nz s.x s.y s.z
          a1 a2 a3 a4 a5 a6 s.coordR f hf
        refine ⟨_, by rw [lookup3_dsAdd, haA]; rfl, ?_⟩
        intro i j k
        rw [specSum_map_append _ _ _ hprev, ← hpA i j k]
        show (arrA i j k).add _ = (arrA i j k).add _
        rw [haT]
        show (arrA i j k).add (arrT i j k) = _
        rw [hpT i j k, ← hs]
      obtain ⟨D, hD, hDf⟩ := ih _ (prev ++ [s]) (by simp)
        (fun u hu => hall u (List.mem_cons_of_mem _ hu)) hinv2
      refine ⟨D, hD, ?_⟩
      intro f hf
      obtain ⟨arr, ha, hp⟩ := hDf f hf
      refine ⟨arr, ha, ?_⟩
      intro i j k
      rw [hp i j k, List.append_assoc]
      rfl

/-- C9: for every non-empty sequence of freshly loaded snapshots,
`sum_dataset` with the two-phase filter enabled succeeds, and in the returned
dataset every base field equals the cellwise sum over the sequence — with no
division by the number of snapshots — of the per-snapshot filtered values:
cells whose derived temperature is not below `Twarm = 2·10⁴` are zeroed in
every field except `gravitational_potential`, which is carried through each
snapshot unmodified. -/
theorem sum_dataset_twophase_filtered_sum (ctx : Ctx) (s0 : Dataset)
    (rest : List Dataset) (hall : ∀ s ∈ s0 :: rest, IsBaseSnap s) :
    ∃ D, sum_dataset ctx (s0 :: rest) true = some D ∧
      ∀ f ∈ baseNames, ∃ arr, D.vars3.lookup f = some arr ∧
        ∀ i j k, arr i j k =
          specSum ((s0 :: rest).map
            (fun d => specFilteredCell ctx d f i j k)) := by
  obtain ⟨a1, a2, a3, a4, a5, a6, hs⟩ :=
    base_destruct s0 (hall s0 (List.mem_cons_self _ _))
  obtain ⟨-, -, hsx, hsy, hsz⟩ := hall s0 (List.mem_cons_self _ _)
  have hproc : procSnap ctx true s0 =
      some (rppOut ctx s0.nx s0.ny s0.nz s0.x s0.y s0.z
        (maskArr (tArrOf ctx a5 a1) a1) (maskArr (tArrOf ctx a5 a1) a2)
        (maskArr (tArrOf ctx a5 a1) a3) (maskArr (tArrOf ctx a5 a1) a4)
        (maskArr (tArrOf ctx a5 a1) a5) a6) := by
    conv_lhs => rw [hs]
    exact procSnap_base ctx s0.nx s0.ny s0.nz s0.x s0.y s0.z a1 a2 a3 a4 a5 a6
      s0.coordR hsx hsy hsz
  have hbase : ∀ f ∈ baseNames, ∃ arr,
      (rppOut ctx s0.nx s0.ny s0.nz s0.x s0.y s0.z
        (maskArr (tArrOf ctx a5 a1) a1) (maskArr (tArrOf ctx a5 a1) a2)
        (maskArr (tArrOf ctx a5 a1) a3) (maskArr (tArrOf ctx a5 a1) a4)
        (maskArr (tArrOf ctx a5 a1) a5) a6).vars3.lookup f = some arr ∧
      ∀ i j k, arr i j k =
        specSum ([s0].map (fun d => specFilteredCell ctx d f i j k)) := by
    intro f hf
    obtain ⟨arr, ha, hp⟩ := rpp_lookup ctx s0.nx s0.ny s0.nz s0.x s0.y s0.z
      a1 a2 a3 a4 a5 a6 s0.coordR f hf
    refine ⟨arr, ha, fun i j k => ?_⟩
    rw [hp i j k, ← hs]
    rfl
  obtain ⟨D, hD, hDf⟩ := sumAux ctx rest
    (rppOut ctx s0.nx s0.ny s0.nz s0.x s0.y s0.z
      (maskArr (tArrOf ctx a5 a1) a1) (maskArr (tArrOf ctx a5 a1) a2)
      (maskArr (tArrOf ctx a5 a1) a3) (maskArr (tArrOf ctx a5 a1) a4)
      (maskArr (tArrOf ctx a5 a1) a5) a6) [s0] (by simp)
    (fun u hu => hall u (List.mem_cons_of_mem _ hu)) hbase
  refine ⟨D, ?_, ?_⟩
  · show (procSnap ctx true s0).bind _ = some D
    rw [hproc]
    simpa using hD
  · intro f hf
    obtain ⟨arr, ha, hp⟩ := hDf f hf
    exact ⟨arr, ha, fun i j k => by rw [hp i j k]; rfl⟩

/-- C9 witness: the theorem applied to the concrete pair of 2×2×4 base
snapshots `D5`. -/
theorem sum_dataset_twophase_filtered_sum_witness :
    ∃ D, sum_dataset ctx0 (D5 :: [D5]) true = some D ∧
      ∀ f ∈ baseNames, ∃ arr, D.vars3.lookup f = some arr ∧
        ∀ i j k, arr i j k =
          specSum ((D5 :: [D5]).map
            (fun d => specFilteredCell ctx0 d f i j k)) :=
  sum_dataset_twophase_filtered_sum ctx0 D5 [D5] (by
    intro s hs
    simp only [List.mem_cons, List.not_mem_nil, or_false] at hs
    rcases hs with rfl | rfl <;>
      exact ⟨rfl, rfl, by decide, by decide, by decide⟩)
